import Mathlib

/-!
Verification of the shroudstone replay simulator (src/rust/src/lib.rs and
src/rust/src/gamestate.rs).  The Rust code is shallowly embedded: the
`BTreeMap` fields become sorted association lists over `Int` keys, the
`HashMap` of slot assignments becomes an association list over `UUID` keys,
and the `simulate` event loop becomes a fold of a `step` function over a
list of decoded chunks.  Rust `Err(_)` returns become `SimResult.fatal`,
and `unwrap`/`assert_eq!` panics become `SimResult.panicked`.
-/

/-! ## Association-list maps (model of BTreeMap / HashMap) -/

/-- Lookup in an association list: `BTreeMap::get` / `HashMap::get`. -/
def lookupA {K V : Type} [DecidableEq K] : List (K × V) → K → Option V
  | [], _ => none
  | (k', v) :: rest, k => if k = k' then some v else lookupA rest k

/-- Insert-or-replace for an unordered map (`HashMap::insert`); insertion
order is irrelevant to the semantics we use. -/
def insertA {K V : Type} [DecidableEq K] : List (K × V) → K → V → List (K × V)
  | [], k, v => [(k, v)]
  | (k', v') :: rest, k, v =>
    if k = k' then (k, v) :: rest else (k', v') :: insertA rest k v

/-- Insert-or-replace keeping keys sorted (`BTreeMap::insert`). -/
def insertSorted {V : Type} : List (Int × V) → Int → V → List (Int × V)
  | [], k, v => [(k, v)]
  | (k', v') :: rest, k, v =>
    if k < k' then (k, v) :: (k', v') :: rest
    else if k = k' then (k, v) :: rest
    else (k', v') :: insertSorted rest k v

/-- Update the value at a key, if present (`BTreeMap::get_mut` followed by a
field mutation); absent keys leave the map unchanged. -/
def modifyA {K V : Type} [DecidableEq K] (f : V → V) : List (K × V) → K → List (K × V)
  | [], _ => []
  | (k', v) :: rest, k =>
    if k = k' then (k', f v) :: rest else (k', v) :: modifyA f rest k

/-- Remove a key (`BTreeMap::remove`). -/
def eraseA {K V : Type} [DecidableEq K] : List (K × V) → K → List (K × V)
  | [], _ => []
  | (k', v) :: rest, k => if k = k' then rest else (k', v) :: eraseA rest k

/-- The `BTreeMap` representation invariant: keys strictly increasing. -/
def sortedKeys {V : Type} (l : List (Int × V)) : Prop :=
  (l.map Prod.fst).Pairwise (· < ·)

instance sortedKeysDecidable {V : Type} (l : List (Int × V)) : Decidable (sortedKeys l) := by
  unfold sortedKeys
  infer_instance

/-! ## Data model (gamestate.rs) -/

/-- 128-bit player identifier, stored as two 64-bit halves
(`stormgate::UUID`). -/
structure UUID where
  part1 : Nat
  part2 : Nat
deriving DecidableEq

/-- `gamestate::SlotType`. -/
inductive SlotType where
  | Closed
  | Human
  | Ai
deriving DecidableEq

/-- `SlotType::try_from_primitive` (`#[repr(u32)]` values 0, 1, 2). -/
def SlotType.tryFromPrimitive : Nat → Option SlotType
  | 0 => some .Closed
  | 1 => some .Human
  | 2 => some .Ai
  | _ => none

/-- `gamestate::Faction`. -/
inductive Faction where
  | Vanguard
  | Infernals
  | Celestial
  | Blockade
  | Amara
  | Maloc
  | Warz
  | Auralanna
deriving DecidableEq

/-- `Faction::try_from_primitive` (`#[repr(u32)]` values). -/
def Faction.tryFromPrimitive : Nat → Option Faction
  | 0 => some .Vanguard
  | 1 => some .Infernals
  | 2 => some .Celestial
  | 101 => some .Blockade
  | 102 => some .Amara
  | 201 => some .Maloc
  | 202 => some .Warz
  | 301 => some .Auralanna
  | _ => none

/-- `gamestate::AIType`. -/
inductive AIType where
  | PeacefulBot
  | MurderBotJr
  | MurderBotSr
deriving DecidableEq

/-- `AIType::try_from_primitive` (`#[repr(u32)]` values 0, 1, 2). -/
def AIType.tryFromPrimitive : Nat → Option AIType
  | 0 => some .PeacefulBot
  | 1 => some .MurderBotJr
  | 2 => some .MurderBotSr
  | _ => none

/-- `gamestate::LeaveReason`. -/
inductive LeaveReason where
  | Unknown
  | Surrender
  | Leave
  | Disconnect
deriving DecidableEq

/-- `gamestate::Slot`. -/
structure Slot where
  slot_type : SlotType
  faction : Faction
  ai_type : Option AIType
  client_id : Option Int
deriving DecidableEq

/-- `impl Default for Slot`: Stormgate lobby slots start with these values. -/
def Slot.defaultSlot : Slot :=
  { slot_type := .Human, faction := .Vanguard, ai_type := none, client_id := none }

/-- `gamestate::Client`. -/
structure Client where
  uuid : UUID
  client_id : Int
  nickname : Option String
  discriminator : Option String
  slot_number : Option Int
  left_game_time : Option Int
  left_game_reason : LeaveReason
deriving DecidableEq

/-- `Client::new`. -/
def Client.new (client_id : Int) (uuid : UUID) : Client :=
  { uuid := uuid, client_id := client_id, nickname := none, discriminator := none,
    slot_number := none, left_game_time := none, left_game_reason := .Unknown }

/-- `gamestate::SlotAssignment`. -/
structure SlotAssignment where
  slot_number : Int
  nickname : String
deriving DecidableEq

/-- `gamestate::GameState`. -/
structure GameState where
  map_name : Option String
  slots : List (Int × Slot)
  clients : List (Int × Client)
  game_started : Bool
  game_started_time : Option Int
  slot_assignments : List (UUID × SlotAssignment)
deriving DecidableEq

/-- `Default::default()` on `GameState`. -/
def GameState.initial : GameState :=
  { map_name := none, slots := [], clients := [], game_started := false,
    game_started_time := none, slot_assignments := [] }

/-! ## Decoded events (stormgate replay content variants) -/

/-- `stormgate::MatchType`, as far as `simulate` distinguishes values:
`Coop3vE`, `Ranked1v1`, and every other variant (which the code treats
like `Ranked1v1` when counting slots). -/
inductive MatchType where
  | Coop3vE
  | Ranked1v1
  | OtherMatchType
deriving DecidableEq

/-- `lobby_change_slot::slot_choice::Choice_type`: the only variant the
simulator inspects is `SpecificSlot`; every other variant falls into the
wildcard arm. -/
inductive ChoiceType where
  | SpecificSlot (slot : Int)
  | OtherChoice
deriving DecidableEq

/-- Nickname/discriminator pair carried by a `Player` message. -/
structure PlayerName where
  nickname : String
  discriminator : String
deriving DecidableEq

/-- `replay_chunk::wrapper::replay_content::Content_type`: the decoded event
payload, with exactly the fields `simulate` reads. -/
inductive CT where
  | MapDetails (map_name : String) (match_type : MatchType)
  | AssignPlayerSlot (uuid : Option UUID) (slot : Int) (nickname : String)
  | Player (uuid : Option UUID) (name : Option PlayerName)
  | ClientConnected (uuid : Option UUID) (client_id : Int)
  | PlayerLeftGame (reason : LeaveReason)
  | ClientDisconnected (client_id : Int) (player_uuid : Option UUID) (reason : LeaveReason)
  | ChangeSlot (choice : Option ChoiceType)
  | SetVariable (slot : Int) (variable_id : Nat) (value : Nat)
  | StartGame
deriving DecidableEq

/-- One decoded chunk envelope (`ReplayChunk` after `take_content`):
timestamp, originating client id, and optional content. -/
structure Chunk where
  timestamp : Int
  client_id : Int
  content : Option CT
deriving DecidableEq

/-! ## The simulator (lib.rs, `simulate`) -/

/-- Result of applying events: `Ok(state)`, `Err(msg)` (fatal, descriptive),
or a Rust panic (`unwrap` on `None` / failed `assert_eq!`). -/
inductive SimResult where
  | ok (s : GameState)
  | fatal (msg : String)
  | panicked
deriving DecidableEq

/-- `for i in 1..=slot_count { state.slots.insert(i, Default::default()) }`. -/
def insertDefaultSlots (slots : List (Int × Slot)) : Nat → List (Int × Slot)
  | 0 => slots
  | n + 1 => insertSorted (insertDefaultSlots slots n) ((n : Int) + 1) Slot.defaultSlot

/-- `first_open_human_slot`: first slot in key order that is unoccupied and
Human-typed; 255 if none. -/
def first_open_human_slot : List (Int × Slot) → Int
  | [] => 255
  | (num, slot) :: rest =>
    if slot.client_id = none ∧ slot.slot_type = SlotType.Human then num
    else first_open_human_slot rest

/-- The slot-clearing loop of the pre-start `PlayerLeftGame` branch:
`for (id, slot) in state.slots.iter_mut() { if slot.client_id == Some(client_id) { slot.client_id = None } }`. -/
def clearClientSlots (cid : Int) : List (Int × Slot) → List (Int × Slot)
  | [] => []
  | p :: rest =>
    (if p.2.client_id = some cid then (p.1, { p.2 with client_id := none }) else p)
      :: clearClientSlots cid rest

/-- The new-slot-number selection of the `ChangeSlot` branch:
`match choice { Some(SpecificSlot(c)) => c.slot, _ => first_open_human_slot(&state.slots) }`,
evaluated against the slot map as it stands after the vacate step. -/
def chooseSlotNumber (choice : Option ChoiceType) (slots1 : List (Int × Slot)) : Int :=
  match choice with
  | some (.SpecificSlot c) => c
  | _ => first_open_human_slot slots1

/-- The vacate step at the start of the `ChangeSlot` branch: clear the
acting client's previous slot unless it is unset or the spectator
sentinel 255; a previous slot number missing from the map is fatal. -/
def vacatePrev (slots : List (Int × Slot)) : Option Int → Except String (List (Int × Slot))
  | some sn =>
    if sn ≠ 255 then
      match lookupA slots sn with
      | some _ => .ok (modifyA (fun sl => { sl with client_id := none }) slots sn)
      | none => .error ("Slot " ++ toString sn ++ " out of range")
    else .ok slots
  | none => .ok slots

/-- One iteration of the `simulate` loop body for a chunk whose content is
present, split by content variant. -/
def step (state : GameState) (timestamp : Int) (client_id : Int) : CT → SimResult
  | .MapDetails map_name match_type =>
    let slot_count : Nat :=
      match match_type with
      | .Coop3vE => 3
      | .Ranked1v1 => 2
      | .OtherMatchType => 2
    .ok { state with
          map_name := some map_name,
          slots := insertDefaultSlots state.slots slot_count }
  | .AssignPlayerSlot uuid slot nickname =>
    match uuid with
    | none => .ok state
    | some u =>
      .ok { state with
            slot_assignments :=
              insertA state.slot_assignments u ⟨slot, nickname⟩ }
  | .Player uuid name =>
    match uuid with
    | none => .ok state
    | some u =>
      let client0 := Client.new client_id u
      let client :=
        match name with
        | some c => { client0 with nickname := some c.nickname, discriminator := some c.discriminator }
        | none => { client0 with nickname := none, discriminator := none }
      match lookupA state.slot_assignments u with
      | some assignment =>
        let client := { client with slot_number := some assignment.slot_number }
        match lookupA state.slots assignment.slot_number with
        | none => .panicked
        | some _ =>
          .ok { state with
                slots := modifyA (fun sl => { sl with client_id := some client_id })
                  state.slots assignment.slot_number,
                clients := insertSorted state.clients client_id client }
      | none => .ok { state with clients := insertSorted state.clients client_id client }
  | .ClientConnected uuid mclient_id =>
    match uuid with
    | none => .ok state
    | some u =>
      let client := Client.new mclient_id u
      match lookupA state.slot_assignments u with
      | some assignment =>
        let client := { client with slot_number := some assignment.slot_number }
        let fin : Client → SimResult := fun client =>
          let slots :=
            match lookupA state.slots assignment.slot_number with
            | some _ => modifyA (fun sl => { sl with client_id := some client.client_id })
                state.slots assignment.slot_number
            | none => state.slots
          .ok { state with
                slots := slots,
                clients := insertSorted state.clients client.client_id client }
        match client.nickname with
        | none => fin { client with nickname := some assignment.nickname }
        | some nk => if nk = assignment.nickname then fin client else .panicked
      | none => .ok { state with clients := insertSorted state.clients mclient_id client }
  | .PlayerLeftGame reason =>
    if state.game_started then
      .ok { state with
            clients := modifyA
              (fun c => { c with left_game_time := some timestamp, left_game_reason := reason })
              state.clients client_id }
    else
      .ok { state with
            clients := eraseA state.clients client_id,
            slots := clearClientSlots client_id state.slots }
  | .ClientDisconnected mclient_id player_uuid reason =>
    if state.game_started then
      match lookupA state.clients mclient_id with
      | some c =>
        if c.left_game_time = none then
          match player_uuid with
          | none => .panicked
          | some u =>
            if c.uuid = u then
              .ok { state with
                    clients := modifyA
                      (fun c => { c with
                                  left_game_time := some timestamp,
                                  left_game_reason := reason })
                      state.clients mclient_id }
            else .panicked
        else .ok state
      | none => .ok state
    else .ok state
  | .ChangeSlot choice =>
    if state.slots.isEmpty then .fatal "Received slot change before map info?"
    else
      match lookupA state.clients client_id with
      | none => .fatal ("Unknown client " ++ toString client_id)
      | some client =>
        match vacatePrev state.slots client.slot_number with
        | .error msg => .fatal msg
        | .ok slots1 =>
          let new_slot_number : Int := chooseSlotNumber choice slots1
          let clients1 := modifyA (fun c => { c with slot_number := some new_slot_number })
            state.clients client_id
          if new_slot_number ≠ 255 then
            match lookupA slots1 new_slot_number with
            | some slot =>
              if slot.slot_type ≠ SlotType.Human ∨ slot.client_id.isSome then
                .fatal "Client assigned to non-human or occupied slot?"
              else
                .ok { state with
                      slots := modifyA (fun sl => { sl with client_id := some client_id })
                        slots1 new_slot_number,
                      clients := clients1 }
            | none => .fatal ("Slot " ++ toString new_slot_number ++ " out of range")
          else .ok { state with slots := slots1, clients := clients1 }
  | .SetVariable mslot variable_id value =>
    match lookupA state.slots mslot with
    | none => .fatal ("Slot " ++ toString mslot ++ " out of range")
    | some _ =>
      if variable_id = 374945738 then
        match SlotType.tryFromPrimitive value with
        | some v =>
          .ok { state with
                slots := modifyA
                  (fun sl => { sl with
                               slot_type := v,
                               ai_type := (match v with
                                 | .Ai => some AIType.PeacefulBot
                                 | _ => none) })
                  state.slots mslot }
        | none => .ok state
      else if variable_id = 2952722564 then
        match Faction.tryFromPrimitive value with
        | some v =>
          .ok { state with
                slots := modifyA (fun sl => { sl with faction := v }) state.slots mslot }
        | none => .ok state
      else if variable_id = 655515685 then
        match AIType.tryFromPrimitive value with
        | some v =>
          .ok { state with
                slots := modifyA (fun sl => { sl with ai_type := some v }) state.slots mslot }
        | none => .ok state
      else .ok state
  | .StartGame =>
    .ok { state with game_started := true, game_started_time := some timestamp }

/-- One loop iteration of `simulate`: a chunk whose content is absent is
skipped (`continue`), otherwise the content is dispatched to `step`. -/
def applyChunk (s : GameState) (c : Chunk) : SimResult :=
  match c.content with
  | none => .ok s
  | some ct => step s c.timestamp c.client_id ct

/-- The `for chunk in replay` loop of `simulate`: the first fatal error or
panic aborts the run. -/
def runEvents : GameState → List Chunk → SimResult
  | s, [] => .ok s
  | s, c :: rest =>
    match applyChunk s c with
    | .ok s' => runEvents s' rest
    | r => r

/-- `simulate`, starting from the default state. -/
def simulate (chunks : List Chunk) : SimResult :=
  runEvents GameState.initial chunks

/-- The client ids announced by `Player` / `ClientConnected` events with a
player identifier present (these are the events that create a `Client`):
`Player` announces the envelope's client id, `ClientConnected` the id
carried in the message. -/
def annId (envelope_client_id : Int) : CT → Option Int
  | .Player (some _) _ => some envelope_client_id
  | .ClientConnected (some _) mclient_id => some mclient_id
  | _ => none

/-- All announced client ids of a chunk list, in order. -/
def announcedIds : List Chunk → List Int
  | [] => []
  | c :: rest =>
    (match c.content with
     | some ct => (annId c.client_id ct).toList
     | none => []) ++ announcedIds rest

/-- Client id `x` occupies no slot of `s`. -/
def Unocc (s : GameState) (x : Int) : Prop :=
  ∀ n sl, lookupA s.slots n = some sl → sl.client_id ≠ some x

/-- Every occupied slot points back: its occupant is a known client whose
recorded `slot_number` is that slot's key. -/
def SlotsOcc (s : GameState) : Prop :=
  ∀ n sl, lookupA s.slots n = some sl → ∀ x, sl.client_id = some x →
    ∃ c, lookupA s.clients x = some c ∧ c.slot_number = some n

/-- The strengthened occupancy invariant for claim C2: both maps satisfy the
`BTreeMap` representation invariant, no slot key is the spectator sentinel
255, and occupancy is back-linked through the client map. -/
def StateInv (s : GameState) : Prop :=
  sortedKeys s.slots ∧ sortedKeys s.clients
    ∧ (∀ p ∈ s.slots, p.1 ≠ (255 : Int)) ∧ SlotsOcc s

/-! ## The chunk stream decoder (lib.rs, `impl Iterator for ReplayFile`) -/

/-- `varint_rs::VarintReader::read_usize_varint`: LEB128, seven payload bits
per byte, low bits first; `none` models the `Err` of a read failure while
the length prefix itself is being read (which `next` treats as clean end
of stream). -/
def readVarintAux : List Nat → Nat → Nat → Option (Nat × List Nat)
  | [], _, _ => none
  | b :: rest, shift, acc =>
    let b := b % 256
    let acc := acc + b % 128 * 2 ^ shift
    if b < 128 then some (acc, rest) else readVarintAux rest (shift + 7) acc

/-- Read one varint length prefix from the head of the stream. -/
def readUsizeVarint (l : List Nat) : Option (Nat × List Nat) :=
  readVarintAux l 0 0

/-- Outcome of one `ReplayFile::next` call.  The Rust signature is
`Option<ReplayChunk>`: either `None` (clean end of stream), or a decoded
chunk; the two `unwrap` calls (short payload read, protobuf parse failure)
panic, which is the third outcome.  There is no error value: the iterator
interface has no channel for one. -/
inductive ChunkOutcome (α : Type) where
  | eos
  | item (chunk : α) (rest : List Nat)
  | panicked
deriving DecidableEq

/-- `ReplayFile::next`, parameterized by the external protobuf parser
(`ReplayChunk::parse_from_bytes`, generated code outside this repository):
read a varint length; on failure end cleanly; otherwise `read_exact` that
many bytes (panicking when the stream is too short) and parse them
(panicking when parsing fails). -/
def replayNext {α : Type} (parse : List Nat → Option α) (s : List Nat) : ChunkOutcome α :=
  match readUsizeVarint s with
  | none => .eos
  | some (len, rest) =>
    if len ≤ rest.length then
      match parse (rest.take len) with
      | some c => .item c (rest.drop len)
      | none => .panicked
    else .panicked

/-! ## Concrete inputs used by counterexamples and witnesses -/

/-- Extract the state of an `ok` result (initial state otherwise). -/
def okState : SimResult → GameState
  | .ok s => s
  | _ => GameState.initial

/-- A concrete player identifier. -/
def uuidOne : UUID := ⟨1, 1⟩

/-- A second concrete player identifier. -/
def uuidTwo : UUID := ⟨2, 2⟩

/-- Chunk list for the C1 counterexample: load a 2-slot map, then apply the
AI-subtype variable (655515685) to slot 1, whose type is still Human. -/
def exC1 : List Chunk :=
  [ ⟨0, 0, some (.MapDetails "m" .Ranked1v1)⟩,
    ⟨0, 0, some (.SetVariable 1 655515685 0)⟩ ]

/-- The state produced by `simulate exC1`. -/
def stateC1 : GameState := okState (simulate exC1)

/-- The slot that `simulate exC1` leaves at slot number 1. -/
def slotC1 : Slot :=
  { slot_type := .Human, faction := .Vanguard, ai_type := some .PeacefulBot, client_id := none }

/-- Chunk list for the C1-amended witness: a map with slot 1 set to AI. -/
def exC1w : List Chunk :=
  [ ⟨0, 0, some (.MapDetails "m" .Ranked1v1)⟩,
    ⟨0, 0, some (.SetVariable 1 374945738 2)⟩ ]

/-- The state produced by `simulate exC1w`. -/
def stateC1w : GameState := okState (simulate exC1w)

/-- Chunk list for the C2 counterexample: two slot assignments for distinct
player identifiers, then two `Player` events that both announce client 7. -/
def exC2 : List Chunk :=
  [ ⟨0, 0, some (.MapDetails "m" .Ranked1v1)⟩,
    ⟨0, 0, some (.AssignPlayerSlot (some uuidOne) 1 "a")⟩,
    ⟨0, 0, some (.AssignPlayerSlot (some uuidTwo) 2 "b")⟩,
    ⟨0, 7, some (.Player (some uuidOne) none)⟩,
    ⟨0, 7, some (.Player (some uuidTwo) none)⟩ ]

/-- The state produced by `simulate exC2`. -/
def stateC2 : GameState := okState (simulate exC2)

/-- Chunk list for the C2-amended witness: each client id announced once. -/
def exC2w : List Chunk :=
  [ ⟨0, 0, some (.MapDetails "m" .Ranked1v1)⟩,
    ⟨0, 0, some (.AssignPlayerSlot (some uuidOne) 1 "a")⟩,
    ⟨0, 7, some (.Player (some uuidOne) none)⟩ ]

/-- The state produced by `simulate exC2w`. -/
def stateC2w : GameState := okState (simulate exC2w)

/-- A fresh two-slot lobby (after a `MapDetails{Ranked1v1}` event). -/
def stateTwoSlots : GameState :=
  okState (simulate [⟨0, 0, some (.MapDetails "m" .Ranked1v1)⟩])

/-- A lobby with client 7 known and seated in slot 1, game not started. -/
def stateLobby : GameState :=
  okState (simulate
    [ ⟨0, 0, some (.MapDetails "m" .Ranked1v1)⟩,
      ⟨0, 0, some (.AssignPlayerSlot (some uuidOne) 1 "a")⟩,
      ⟨0, 7, some (.Player (some uuidOne) none)⟩ ])

/-- The same lobby after `StartGame`. -/
def stateStarted : GameState :=
  okState (simulate
    [ ⟨0, 0, some (.MapDetails "m" .Ranked1v1)⟩,
      ⟨0, 0, some (.AssignPlayerSlot (some uuidOne) 1 "a")⟩,
      ⟨0, 7, some (.Player (some uuidOne) none)⟩,
      ⟨3, 0, some .StartGame⟩ ])

/-- A two-slot lobby holding one slot assignment (slot 1, nickname "a"). -/
def stateAssign : GameState :=
  okState (simulate
    [ ⟨0, 0, some (.MapDetails "m" .Ranked1v1)⟩,
      ⟨0, 0, some (.AssignPlayerSlot (some uuidOne) 1 "a")⟩ ])

/-- A two-slot lobby whose only slot assignment points at the absent
slot number 255. -/
def stateAssign255 : GameState :=
  okState (simulate
    [ ⟨0, 0, some (.MapDetails "m" .Ranked1v1)⟩,
      ⟨0, 0, some (.AssignPlayerSlot (some uuidOne) 255 "a")⟩ ])

/-! ## Association-map lemmas -/

theorem lookupA_insertSorted_self {V : Type} (l : List (Int × V)) (k : Int) (v : V) :
    lookupA (insertSorted l k v) k = some v := by
  induction l with
  | nil => simp [insertSorted, lookupA]
  | cons p rest ih =>
    obtain ⟨k1, v1⟩ := p
    by_cases h1 : k < k1
    · simp [insertSorted, h1, lookupA]
    · by_cases h2 : k = k1
      · simp [insertSorted, h1, h2, lookupA]
      · simp [insertSorted, h1, h2, lookupA, ih]

theorem lookupA_insertSorted_ne {V : Type} (l : List (Int × V)) (k : Int) (v : V)
    (k' : Int) (h : k' ≠ k) :
    lookupA (insertSorted l k v) k' = lookupA l k' := by
  induction l with
  | nil => simp [insertSorted, lookupA, h]
  | cons p rest ih =>
    obtain ⟨k1, v1⟩ := p
    by_cases h1 : k < k1
    · simp [insertSorted, h1, lookupA, h]
    · by_cases h2 : k = k1
      · subst h2
        simp [insertSorted, h1, lookupA, h]
      · simp [insertSorted, h1, h2, lookupA, ih]

theorem mem_insertSorted {V : Type} {p : Int × V} {l : List (Int × V)} {k : Int} {v : V}
    (h : p ∈ insertSorted l k v) :
    p = (k, v) ∨ p ∈ l := by
  induction l with
  | nil => simpa [insertSorted] using h
  | cons q rest ih =>
    obtain ⟨k1, v1⟩ := q
    by_cases h1 : k < k1
    · rw [show insertSorted ((k1, v1) :: rest) k v = (k, v) :: (k1, v1) :: rest by
        simp [insertSorted, h1]] at h
      rcases List.mem_cons.mp h with h | h
      · exact Or.inl h
      · exact Or.inr h
    · by_cases h2 : k = k1
      · rw [show insertSorted ((k1, v1) :: rest) k v = (k, v) :: rest by
          simp [insertSorted, h1, h2]] at h
        rcases List.mem_cons.mp h with h | h
        · exact Or.inl h
        · exact Or.inr (List.mem_cons_of_mem _ h)
      · rw [show insertSorted ((k1, v1) :: rest) k v = (k1, v1) :: insertSorted rest k v by
          simp [insertSorted, h1, h2]] at h
        rcases List.mem_cons.mp h with h | h
        · exact Or.inr (by simp [h])
        · rcases ih h with h' | h'
          · exact Or.inl h'
          · exact Or.inr (List.mem_cons_of_mem _ h')

theorem map_fst_modifyA {K V : Type} [DecidableEq K] (f : V → V) (l : List (K × V)) (k : K) :
    (modifyA f l k).map Prod.fst = l.map Prod.fst := by
  induction l with
  | nil => simp [modifyA]
  | cons q rest ih =>
    obtain ⟨k1, v1⟩ := q
    by_cases h : k = k1 <;> simp [modifyA, h, ih]

theorem lookupA_modifyA_self {K V : Type} [DecidableEq K] (f : V → V) (l : List (K × V)) (k : K) :
    lookupA (modifyA f l k) k = (lookupA l k).map f := by
  induction l with
  | nil => simp [modifyA, lookupA]
  | cons q rest ih =>
    obtain ⟨k1, v1⟩ := q
    by_cases h : k = k1 <;> simp [modifyA, h, lookupA, ih]

theorem lookupA_modifyA_ne {K V : Type} [DecidableEq K] (f : V → V) (l : List (K × V))
    (k k' : K) (h : k' ≠ k) :
    lookupA (modifyA f l k) k' = lookupA l k' := by
  induction l with
  | nil => simp [modifyA]
  | cons q rest ih =>
    obtain ⟨k1, v1⟩ := q
    by_cases h1 : k = k1
    · subst h1
      simp [modifyA, lookupA, h, ih]
    · by_cases h2 : k' = k1 <;> simp [modifyA, lookupA, h1, h2, ih]

theorem mem_modifyA {K V : Type} [DecidableEq K] {p : K × V} {f : V → V}
    {l : List (K × V)} {k : K} (h : p ∈ modifyA f l k) :
    p ∈ l ∨ ∃ q, q ∈ l ∧ p = (q.1, f q.2) := by
  induction l with
  | nil => simp [modifyA] at h
  | cons q rest ih =>
    obtain ⟨k1, v1⟩ := q
    by_cases h1 : k = k1
    · simp [modifyA, h1] at h
      rcases h with h | h
      · exact Or.inr ⟨(k1, v1), by simp, by simp [h]⟩
      · exact Or.inl (List.mem_cons_of_mem _ h)
    · simp [modifyA, h1] at h
      rcases h with h | h
      · exact Or.inl (by simp [h])
      · rcases ih h with h' | ⟨q', hq', hpq⟩
        · exact Or.inl (List.mem_cons_of_mem _ h')
        · exact Or.inr ⟨q', List.mem_cons_of_mem _ hq', hpq⟩

theorem eraseA_sublist {K V : Type} [DecidableEq K] (l : List (K × V)) (k : K) :
    List.Sublist (eraseA l k) l := by
  induction l with
  | nil => simp [eraseA]
  | cons q rest ih =>
    obtain ⟨k1, v1⟩ := q
    by_cases h : k = k1
    · rw [show eraseA ((k1, v1) :: rest) k = rest by simp [eraseA, h]]
      exact List.sublist_cons_self (k1, v1) rest
    · rw [show eraseA ((k1, v1) :: rest) k = (k1, v1) :: eraseA rest k by simp [eraseA, h]]
      exact List.Sublist.cons₂ (k1, v1) ih

theorem lookupA_eraseA_ne {K V : Type} [DecidableEq K] (l : List (K × V)) (k k' : K)
    (h : k' ≠ k) :
    lookupA (eraseA l k) k' = lookupA l k' := by
  induction l with
  | nil => simp [eraseA]
  | cons q rest ih =>
    obtain ⟨k1, v1⟩ := q
    by_cases h1 : k = k1
    · subst h1
      simp [eraseA, lookupA, h]
    · by_cases h2 : k' = k1 <;> simp [eraseA, lookupA, h1, h2, ih]

theorem lookupA_eq_none_of_not_mem {K V : Type} [DecidableEq K] {l : List (K × V)} {k : K}
    (h : k ∉ l.map Prod.fst) :
    lookupA l k = none := by
  induction l with
  | nil => simp [lookupA]
  | cons q rest ih =>
    obtain ⟨k1, v1⟩ := q
    rw [List.map_cons] at h
    have h1 : k ≠ k1 := fun hk => h (by simp [hk])
    have h2 : k ∉ rest.map Prod.fst := fun hk => h (List.mem_cons_of_mem _ hk)
    simp [lookupA, h1, ih h2]

theorem lookupA_some_mem {K V : Type} [DecidableEq K] {l : List (K × V)} {k : K} {v : V}
    (h : lookupA l k = some v) :
    (k, v) ∈ l := by
  induction l with
  | nil => simp [lookupA] at h
  | cons q rest ih =>
    obtain ⟨k1, v1⟩ := q
    by_cases h1 : k = k1
    · subst h1
      simp [lookupA] at h
      simp [h]
    · simp [lookupA, h1] at h
      exact List.mem_cons_of_mem _ (ih h)

theorem mem_lookupA {V : Type} {l : List (Int × V)} {k : Int} {v : V}
    (hs : sortedKeys l) (h : (k, v) ∈ l) :
    lookupA l k = some v := by
  induction l with
  | nil => simp at h
  | cons q rest ih =>
    obtain ⟨k1, v1⟩ := q
    rw [sortedKeys, List.map_cons, List.pairwise_cons] at hs
    rcases List.mem_cons.mp h with h' | h'
    · have hk : k = k1 := congrArg Prod.fst h'
      have hv : v = v1 := congrArg Prod.snd h'
      subst hk
      subst hv
      simp [lookupA]
    · have hk : k1 < k := hs.1 k (List.mem_map.mpr ⟨(k, v), h', rfl⟩)
      have hne : k ≠ k1 := by omega
      simp [lookupA, hne]
      exact ih hs.2 h'

theorem lookupA_eraseA_self {V : Type} {l : List (Int × V)} (hs : sortedKeys l) (k : Int) :
    lookupA (eraseA l k) k = none := by
  induction l with
  | nil => simp [eraseA, lookupA]
  | cons q rest ih =>
    obtain ⟨k1, v1⟩ := q
    rw [sortedKeys, List.map_cons, List.pairwise_cons] at hs
    by_cases h1 : k = k1
    · subst h1
      simp [eraseA]
      apply lookupA_eq_none_of_not_mem
      intro hmem
      exact absurd (hs.1 k hmem) (lt_irrefl k)
    · simp [eraseA, lookupA, h1]
      exact ih hs.2

theorem sortedKeys_insertSorted {V : Type} {l : List (Int × V)} (hs : sortedKeys l)
    (k : Int) (v : V) :
    sortedKeys (insertSorted l k v) := by
  induction l with
  | nil => simp [insertSorted, sortedKeys]
  | cons q rest ih =>
    obtain ⟨k1, v1⟩ := q
    rw [sortedKeys, List.map_cons, List.pairwise_cons] at hs
    by_cases h1 : k < k1
    · rw [show insertSorted ((k1, v1) :: rest) k v = (k, v) :: (k1, v1) :: rest by
        simp [insertSorted, h1]]
      rw [sortedKeys, List.map_cons, List.map_cons, List.pairwise_cons]
      refine ⟨?_, ?_⟩
      · intro y hy
        rcases List.mem_cons.mp hy with rfl | hy'
        · exact h1
        · exact lt_trans h1 (hs.1 y hy')
      · exact List.pairwise_cons.mpr ⟨hs.1, hs.2⟩
    · by_cases h2 : k = k1
      · subst h2
        rw [show insertSorted ((k, v1) :: rest) k v = (k, v) :: rest by
          simp [insertSorted, h1]]
        rw [sortedKeys, List.map_cons, List.pairwise_cons]
        exact ⟨hs.1, hs.2⟩
      · rw [show insertSorted ((k1, v1) :: rest) k v = (k1, v1) :: insertSorted rest k v by
          simp [insertSorted, h1, h2]]
        rw [sortedKeys, List.map_cons, List.pairwise_cons]
        refine ⟨?_, ih hs.2⟩
        intro y hy
        rcases List.mem_map.mp hy with ⟨p, hp, rfl⟩
        rcases mem_insertSorted hp with h' | hp'
        · rw [h']
          show k1 < k
          omega
        · exact hs.1 p.1 (List.mem_map.mpr ⟨p, hp', rfl⟩)

theorem sortedKeys_modifyA {V : Type} {l : List (Int × V)} (hs : sortedKeys l)
    (f : V → V) (k : Int) :
    sortedKeys (modifyA f l k) := by
  rw [sortedKeys, map_fst_modifyA]
  exact hs

theorem sortedKeys_eraseA {V : Type} {l : List (Int × V)} (hs : sortedKeys l) (k : Int) :
    sortedKeys (eraseA l k) := by
  exact List.Pairwise.sublist (List.Sublist.map Prod.fst (eraseA_sublist l k)) hs

theorem map_fst_clearClientSlots (cid : Int) (l : List (Int × Slot)) :
    (clearClientSlots cid l).map Prod.fst = l.map Prod.fst := by
  induction l with
  | nil => simp [clearClientSlots]
  | cons q rest ih =>
    by_cases h : q.2.client_id = some cid <;> simp [clearClientSlots, h, ih]

theorem sortedKeys_clearClientSlots {l : List (Int × Slot)} (hs : sortedKeys l) (cid : Int) :
    sortedKeys (clearClientSlots cid l) := by
  rw [sortedKeys, map_fst_clearClientSlots]
  exact hs

theorem lookupA_clearClientSlots (cid : Int) (l : List (Int × Slot)) (k : Int) :
    lookupA (clearClientSlots cid l) k =
      (lookupA l k).map fun sl =>
        if sl.client_id = some cid then { sl with client_id := none } else sl := by
  induction l with
  | nil => simp [clearClientSlots, lookupA]
  | cons q rest ih =>
    obtain ⟨k1, sl1⟩ := q
    by_cases hc : sl1.client_id = some cid
    · rw [show clearClientSlots cid ((k1, sl1) :: rest)
          = (k1, { sl1 with client_id := none }) :: clearClientSlots cid rest by
        simp [clearClientSlots, hc]]
      by_cases hk : k = k1
      · subst hk
        simp [lookupA, hc]
      · simp [lookupA, hk, ih]
    · rw [show clearClientSlots cid ((k1, sl1) :: rest)
          = (k1, sl1) :: clearClientSlots cid rest by
        simp [clearClientSlots, hc]]
      by_cases hk : k = k1
      · subst hk
        simp [lookupA, hc]
      · simp [lookupA, hk, ih]

theorem lookupA_insertDefaultSlots (l : List (Int × Slot)) (n : Nat) (k : Int) :
    lookupA (insertDefaultSlots l n) k =
      if 1 ≤ k ∧ k ≤ (n : Int) then some Slot.defaultSlot else lookupA l k := by
  induction n with
  | zero =>
    rw [insertDefaultSlots, if_neg]
    omega
  | succ n ih =>
    rw [insertDefaultSlots]
    by_cases hk : k = (n : Int) + 1
    · subst hk
      rw [lookupA_insertSorted_self, if_pos]
      constructor <;> omega
    · rw [lookupA_insertSorted_ne _ _ _ _ hk, ih]
      by_cases h1 : 1 ≤ k ∧ k ≤ (n : Int)
      · rw [if_pos h1, if_pos]
        push_cast
        omega
      · rw [if_neg h1, if_neg]
        push_cast
        push_cast at hk
        omega

theorem mem_insertDefaultSlots {l : List (Int × Slot)} {n : Nat} {p : Int × Slot}
    (h : p ∈ insertDefaultSlots l n) :
    p ∈ l ∨ (1 ≤ p.1 ∧ p.1 ≤ (n : Int) ∧ p.2 = Slot.defaultSlot) := by
  induction n with
  | zero => exact Or.inl h
  | succ n ih =>
    rw [insertDefaultSlots] at h
    rcases mem_insertSorted h with h' | h'
    · right
      rw [h']
      refine ⟨by omega, by push_cast; omega, rfl⟩
    · rcases ih h' with h'' | h''
      · exact Or.inl h''
      · right
        refine ⟨h''.1, by push_cast; omega, h''.2.2⟩

theorem sortedKeys_insertDefaultSlots {l : List (Int × Slot)} (hs : sortedKeys l) (n : Nat) :
    sortedKeys (insertDefaultSlots l n) := by
  induction n with
  | zero => exact hs
  | succ n ih => exact sortedKeys_insertSorted ih _ _

theorem modifyA_eq_of_lookupA_none {K V : Type} [DecidableEq K] {f : V → V}
    {l : List (K × V)} {k : K} (h : lookupA l k = none) :
    modifyA f l k = l := by
  induction l with
  | nil => simp [modifyA]
  | cons q rest ih =>
    obtain ⟨k1, v1⟩ := q
    by_cases h1 : k = k1
    · subst h1
      simp [lookupA] at h
    · simp [lookupA, h1] at h
      simp [modifyA, h1, ih h]

theorem mem_clearClientSlots {p : Int × Slot} {cid : Int} {l : List (Int × Slot)}
    (h : p ∈ clearClientSlots cid l) :
    ∃ q, q ∈ l ∧ (p = q ∨ p = (q.1, { q.2 with client_id := none })) := by
  induction l with
  | nil => simp [clearClientSlots] at h
  | cons q rest ih =>
    rcases List.mem_cons.mp h with h' | h'
    · by_cases hc : q.2.client_id = some cid
      · exact ⟨q, by simp, Or.inr (by simpa [clearClientSlots, hc] using h')⟩
      · exact ⟨q, by simp, Or.inl (by simpa [clearClientSlots, hc] using h')⟩
    · obtain ⟨q', hq', hpq⟩ := ih h'
      exact ⟨q', List.mem_cons_of_mem _ hq', hpq⟩

theorem vacatePrev_ok {slots slots1 : List (Int × Slot)} {osn : Option Int}
    (h : vacatePrev slots osn = .ok slots1) :
    slots1 = slots ∨ ∃ sn, slots1 = modifyA (fun sl => { sl with client_id := none }) slots sn := by
  match osn with
  | none =>
    simp [vacatePrev] at h
    exact Or.inl h.symm
  | some sn =>
    by_cases h255 : sn = (255 : Int)
    · simp [vacatePrev, h255] at h
      exact Or.inl h.symm
    · rw [vacatePrev, if_pos h255] at h
      cases hl : lookupA slots sn with
      | none => rw [hl] at h; cases h
      | some sl =>
        rw [hl] at h
        cases h
        exact Or.inr ⟨sn, rfl⟩

theorem sortedKeys_vacatePrev {slots slots1 : List (Int × Slot)} {osn : Option Int}
    (hs : sortedKeys slots) (h : vacatePrev slots osn = .ok slots1) :
    sortedKeys slots1 := by
  rcases vacatePrev_ok h with rfl | ⟨sn, rfl⟩
  · exact hs
  · exact sortedKeys_modifyA hs _ _

theorem isEmpty_false_of_ne_nil {α : Type} {l : List α} (h : l ≠ []) :
    l.isEmpty = false := by
  cases l with
  | nil => exact absurd rfl h
  | cons a rest => rfl

/-! ## Claim C5 -/

/-- Claim C5: a `ChangeSlot` event applied to a state with an empty slot map
aborts with the fatal ordering error, and a `ChangeSlot` event whose acting
client id is unknown aborts with the fatal unknown-client error; in both
cases no `GameState` is returned (the result is `fatal`, not `ok`). -/
theorem claim_C5 (s : GameState) (t cid : Int) (choice : Option ChoiceType) :
    (s.slots = [] →
      step s t cid (.ChangeSlot choice) = .fatal "Received slot change before map info?")
    ∧ (s.slots ≠ [] → lookupA s.clients cid = none →
      step s t cid (.ChangeSlot choice) = .fatal ("Unknown client " ++ toString cid)) := by
  constructor
  · intro h
    simp [step, h]
  · intro h1 h2
    simp [step, isEmpty_false_of_ne_nil h1, h2]

/-- Witness for C5: the spec's own scenario — `MapDetails{Ranked1v1}`
followed by a `ChangeSlot` from client 5, which is not yet known. -/
theorem claim_C5_witness :
    step stateTwoSlots 0 5 (.ChangeSlot none) = .fatal ("Unknown client " ++ toString (5 : Int)) :=
  (claim_C5 stateTwoSlots 0 5 none).2 (by decide) (by decide)

/-! ## Claim C6 -/

/-- Claim C6: for every `SetVariable` event, a target slot number absent
from the slot map is a fatal "slot out of range" error; otherwise variable
id 374945738 sets the slot's type (setting `ai_type` to the default AI
subtype `PeacefulBot` when the new type is AI and to `none` otherwise),
2952722564 sets the faction, 655515685 sets the AI subtype; an
unrecognized value for a recognized id leaves the state unchanged
(non-fatal), and an unrecognized variable id is a silent no-op. -/
theorem claim_C6 (s : GameState) (t cid mslot : Int) (vid value : Nat) :
    (lookupA s.slots mslot = none →
      step s t cid (.SetVariable mslot vid value)
        = .fatal ("Slot " ++ toString mslot ++ " out of range"))
    ∧ (∀ sl, lookupA s.slots mslot = some sl →
        (∀ v, vid = 374945738 → SlotType.tryFromPrimitive value = some v →
          ∃ s', step s t cid (.SetVariable mslot vid value) = .ok s'
            ∧ lookupA s'.slots mslot = some { sl with
                slot_type := v,
                ai_type := if v = .Ai then some .PeacefulBot else none }
            ∧ (∀ k, k ≠ mslot → lookupA s'.slots k = lookupA s.slots k)
            ∧ s'.clients = s.clients ∧ s'.map_name = s.map_name
            ∧ s'.game_started = s.game_started
            ∧ s'.game_started_time = s.game_started_time
            ∧ s'.slot_assignments = s.slot_assignments)
        ∧ (vid = 374945738 → SlotType.tryFromPrimitive value = none →
            step s t cid (.SetVariable mslot vid value) = .ok s)
        ∧ (∀ v, vid = 2952722564 → Faction.tryFromPrimitive value = some v →
          ∃ s', step s t cid (.SetVariable mslot vid value) = .ok s'
            ∧ lookupA s'.slots mslot = some { sl with faction := v }
            ∧ (∀ k, k ≠ mslot → lookupA s'.slots k = lookupA s.slots k)
            ∧ s'.clients = s.clients ∧ s'.map_name = s.map_name
            ∧ s'.game_started = s.game_started
            ∧ s'.game_started_time = s.game_started_time
            ∧ s'.slot_assignments = s.slot_assignments)
        ∧ (vid = 2952722564 → Faction.tryFromPrimitive value = none →
            step s t cid (.SetVariable mslot vid value) = .ok s)
        ∧ (∀ v, vid = 655515685 → AIType.tryFromPrimitive value = some v →
          ∃ s', step s t cid (.SetVariable mslot vid value) = .ok s'
            ∧ lookupA s'.slots mslot = some { sl with ai_type := some v }
            ∧ (∀ k, k ≠ mslot → lookupA s'.slots k = lookupA s.slots k)
            ∧ s'.clients = s.clients ∧ s'.map_name = s.map_name
            ∧ s'.game_started = s.game_started
            ∧ s'.game_started_time = s.game_started_time
            ∧ s'.slot_assignments = s.slot_assignments)
        ∧ (vid = 655515685 → AIType.tryFromPrimitive value = none →
            step s t cid (.SetVariable mslot vid value) = .ok s)
        ∧ (vid ≠ 374945738 → vid ≠ 2952722564 → vid ≠ 655515685 →
            step s t cid (.SetVariable mslot vid value) = .ok s)) := by
  constructor
  · intro h
    simp only [step]
    rw [h]
  · intro sl hsl
    refine ⟨?_, ?_, ?_, ?_, ?_, ?_, ?_⟩
    · intro v hvid hv
      subst hvid
      have hstep : step s t cid (.SetVariable mslot 374945738 value) =
          .ok { s with
                slots := modifyA (fun sl =>
                  { sl with
                    slot_type := v,
                    ai_type := (match v with
                      | .Ai => some AIType.PeacefulBot
                      | _ => none) }) s.slots mslot } := by
        simp only [step]
        rw [hsl]
        simp only [hv, if_true]
        cases v <;> rfl
      refine ⟨_, hstep, ?_, ?_, rfl, rfl, rfl, rfl, rfl⟩
      · show lookupA (modifyA _ s.slots mslot) mslot = _
        rw [lookupA_modifyA_self, hsl, Option.map_some']
        cases v <;> simp
      · intro k hk
        exact lookupA_modifyA_ne _ _ _ _ hk
    · intro hvid hv
      subst hvid
      simp only [step]
      rw [hsl]
      norm_num [hv]
    · intro v hvid hv
      subst hvid
      have hstep : step s t cid (.SetVariable mslot 2952722564 value) =
          .ok { s with
                slots := modifyA (fun sl => { sl with faction := v }) s.slots mslot } := by
        simp only [step]
        rw [hsl]
        norm_num [hv]
      refine ⟨_, hstep, ?_, ?_, rfl, rfl, rfl, rfl, rfl⟩
      · show lookupA (modifyA _ s.slots mslot) mslot = _
        rw [lookupA_modifyA_self, hsl, Option.map_some']
      · intro k hk
        exact lookupA_modifyA_ne _ _ _ _ hk
    · intro hvid hv
      subst hvid
      simp only [step]
      rw [hsl]
      norm_num [hv]
    · intro v hvid hv
      subst hvid
      have hstep : step s t cid (.SetVariable mslot 655515685 value) =
          .ok { s with
                slots := modifyA (fun sl => { sl with ai_type := some v }) s.slots mslot } := by
        simp only [step]
        rw [hsl]
        norm_num [hv]
      refine ⟨_, hstep, ?_, ?_, rfl, rfl, rfl, rfl, rfl⟩
      · show lookupA (modifyA _ s.slots mslot) mslot = _
        rw [lookupA_modifyA_self, hsl, Option.map_some']
      · intro k hk
        exact lookupA_modifyA_ne _ _ _ _ hk
    · intro hvid hv
      subst hvid
      simp only [step]
      rw [hsl]
      norm_num [hv]
    · intro h1 h2 h3
      simp only [step]
      rw [hsl, if_neg h1, if_neg h2, if_neg h3]

/-- Witness for C6: set slot 1 of a fresh two-slot lobby to AI type. -/
theorem claim_C6_witness :
    ∃ s', step stateTwoSlots 0 0 (.SetVariable 1 374945738 2) = .ok s'
      ∧ lookupA s'.slots 1 = some { Slot.defaultSlot with
          slot_type := .Ai,
          ai_type := if SlotType.Ai = .Ai then some .PeacefulBot else none }
      ∧ (∀ k, k ≠ 1 → lookupA s'.slots k = lookupA stateTwoSlots.slots k)
      ∧ s'.clients = stateTwoSlots.clients ∧ s'.map_name = stateTwoSlots.map_name
      ∧ s'.game_started = stateTwoSlots.game_started
      ∧ s'.game_started_time = stateTwoSlots.game_started_time
      ∧ s'.slot_assignments = stateTwoSlots.slot_assignments :=
  ((claim_C6 stateTwoSlots 0 0 1 374945738 2).2 Slot.defaultSlot (by decide)).1
    SlotType.Ai rfl (by decide)

/-! ## Claim C3 -/

/-- Claim C3: a `PlayerLeftGame` before `StartGame` removes the envelope
client's record (unknown ids are non-fatal) and clears `client_id` on every
slot that referenced it; after `StartGame` it preserves the record and sets
only the departure timestamp and reason (no-op for unknown clients).  The
`sortedKeys` hypothesis is the `BTreeMap` representation invariant. -/
theorem claim_C3 (s : GameState) (t cid : Int) (r : LeaveReason)
    (hc : sortedKeys s.clients) :
    (s.game_started = false →
      ∃ s', step s t cid (.PlayerLeftGame r) = .ok s'
        ∧ lookupA s'.clients cid = none
        ∧ (∀ x, x ≠ cid → lookupA s'.clients x = lookupA s.clients x)
        ∧ (∀ n, lookupA s'.slots n = (lookupA s.slots n).map fun sl =>
            if sl.client_id = some cid then { sl with client_id := none } else sl)
        ∧ s'.game_started = s.game_started ∧ s'.map_name = s.map_name
        ∧ s'.game_started_time = s.game_started_time
        ∧ s'.slot_assignments = s.slot_assignments)
    ∧ (s.game_started = true →
        (lookupA s.clients cid = none → step s t cid (.PlayerLeftGame r) = .ok s)
        ∧ (∀ c, lookupA s.clients cid = some c →
            ∃ s', step s t cid (.PlayerLeftGame r) = .ok s'
              ∧ s'.slots = s.slots
              ∧ lookupA s'.clients cid
                  = some { c with left_game_time := some t, left_game_reason := r }
              ∧ (∀ x, x ≠ cid → lookupA s'.clients x = lookupA s.clients x)
              ∧ s'.game_started = s.game_started ∧ s'.map_name = s.map_name
              ∧ s'.game_started_time = s.game_started_time
              ∧ s'.slot_assignments = s.slot_assignments)) := by
  constructor
  · intro hg
    refine ⟨{ s with
              clients := eraseA s.clients cid,
              slots := clearClientSlots cid s.slots }, ?_, ?_, ?_, ?_, rfl, rfl, rfl, rfl⟩
    · simp [step, hg]
    · exact lookupA_eraseA_self hc cid
    · intro x hx
      exact lookupA_eraseA_ne _ _ _ hx
    · intro n
      exact lookupA_clearClientSlots cid s.slots n
  · intro hg
    constructor
    · intro hnone
      simp only [step]
      rw [if_pos hg, modifyA_eq_of_lookupA_none hnone]
    · intro c hsome
      refine ⟨{ s with
                clients := modifyA
                  (fun c => { c with left_game_time := some t, left_game_reason := r })
                  s.clients cid }, ?_, rfl, ?_, ?_, rfl, rfl, rfl, rfl⟩
      · simp [step, hg]
      · rw [lookupA_modifyA_self, hsome, Option.map_some']
      · intro x hx
        exact lookupA_modifyA_ne _ _ _ _ hx

/-- Witness for C3: client 7 leaves the lobby before the game starts; its
record disappears from the client map. -/
theorem claim_C3_witness :
    lookupA (okState (step stateLobby 9 7 (.PlayerLeftGame .Leave))).clients 7 = none := by
  obtain ⟨s', hstep, hnone, _⟩ := (claim_C3 stateLobby 9 7 .Leave (by decide)).1 (by decide)
  rw [hstep]
  exact hnone

/-! ## Claim C8 -/

/-- Claim C8: in the `ClientConnected` handler the freshly created Client's
nickname is still `None` when checked (`Client::new` sets it to `None` and
nothing assigns it earlier), so when a `SlotAssignment` exists its nickname
is always adopted and the `assert_eq!` mismatch branch is unreachable: the
handler never panics (it always returns `ok`). -/
theorem claim_C8 (s : GameState) (t cid : Int) (u : Option UUID) (mcid : Int) :
    (∃ s', step s t cid (.ClientConnected u mcid) = .ok s')
    ∧ (∀ uu a, u = some uu → lookupA s.slot_assignments uu = some a →
        ∃ s' c, step s t cid (.ClientConnected u mcid) = .ok s'
          ∧ lookupA s'.clients mcid = some c ∧ c.nickname = some a.nickname) := by
  have key : ∀ uu a, lookupA s.slot_assignments uu = some a →
      ∃ s', step s t cid (.ClientConnected (some uu) mcid) = .ok s'
        ∧ lookupA s'.clients mcid = some
            { Client.new mcid uu with
              slot_number := some a.slot_number,
              nickname := some a.nickname } := by
    intro uu a ha
    cases hsl : lookupA s.slots a.slot_number with
    | none =>
      refine ⟨{ s with
                clients := insertSorted s.clients mcid
                  { Client.new mcid uu with
                    slot_number := some a.slot_number,
                    nickname := some a.nickname } }, ?_, ?_⟩
      · simp only [step]
        rw [ha]
        simp [Client.new, hsl]
      · exact lookupA_insertSorted_self _ _ _
    | some sl =>
      refine ⟨{ s with
                slots := modifyA (fun q => { q with client_id := some mcid })
                  s.slots a.slot_number,
                clients := insertSorted s.clients mcid
                  { Client.new mcid uu with
                    slot_number := some a.slot_number,
                    nickname := some a.nickname } }, ?_, ?_⟩
      · simp only [step]
        rw [ha]
        simp [Client.new, hsl]
      · exact lookupA_insertSorted_self _ _ _
  constructor
  · cases u with
    | none => exact ⟨s, by simp [step]⟩
    | some uu =>
      cases ha : lookupA s.slot_assignments uu with
      | none =>
        refine ⟨{ s with clients := insertSorted s.clients mcid (Client.new mcid uu) }, ?_⟩
        simp only [step]
        rw [ha]
      | some a =>
        obtain ⟨s', hs', _⟩ := key uu a ha
        exact ⟨s', hs'⟩
  · intro uu a hu ha
    subst hu
    obtain ⟨s', hs', hlook⟩ := key uu a ha
    exact ⟨s', _, hs', hlook, rfl⟩

/-- Witness for C8: connecting client 7 against a slot assignment for
slot 1 with nickname "a" adopts that nickname. -/
theorem claim_C8_witness :
    (lookupA (okState (step stateAssign 0 0 (.ClientConnected (some uuidOne) 7))).clients 7).map
        Client.nickname = some (some "a") := by
  obtain ⟨s', c, hstep, hlook, hnick⟩ :=
    (claim_C8 stateAssign 0 0 (some uuidOne) 7).2 uuidOne ⟨1, "a"⟩ rfl (by decide)
  rw [hstep]
  show (lookupA s'.clients 7).map Client.nickname = some (some "a")
  rw [hlook, Option.map_some', hnick]

/-! ## Claim C9 -/

/-- Claim C9: when the stored `SlotAssignment` for the announced player
identifier names a slot number absent from the slot map, the `Player`
handler panics on the `unwrap` of the slot lookup (no descriptive error),
while the `ClientConnected` handler tolerates exactly the same missing slot
silently (it returns `ok`); when the slot exists the `Player` handler
returns `ok`. -/
theorem claim_C9 (s : GameState) (t cid : Int) (u : UUID) (name : Option PlayerName)
    (a : SlotAssignment) (mcid : Int)
    (ha : lookupA s.slot_assignments u = some a) :
    (lookupA s.slots a.slot_number = none →
      step s t cid (.Player (some u) name) = .panicked
        ∧ ∃ s', step s t cid (.ClientConnected (some u) mcid) = .ok s')
    ∧ (∀ sl, lookupA s.slots a.slot_number = some sl →
        ∃ s', step s t cid (.Player (some u) name) = .ok s') := by
  constructor
  · intro hsl
    constructor
    · simp only [step]
      rw [ha]
      simp [hsl]
    · refine ⟨{ s with
                clients := insertSorted s.clients mcid
                  { Client.new mcid u with
                    slot_number := some a.slot_number,
                    nickname := some a.nickname } }, ?_⟩
      simp only [step]
      rw [ha]
      simp [Client.new, hsl]
  · intro sl hsl
    cases name with
    | none =>
      refine ⟨{ s with
                slots := modifyA (fun q => { q with client_id := some cid })
                  s.slots a.slot_number,
                clients := insertSorted s.clients cid
                  { Client.new cid u with slot_number := some a.slot_number } }, ?_⟩
      simp only [step]
      rw [ha]
      simp [Client.new, hsl]
    | some nm =>
      refine ⟨{ s with
                slots := modifyA (fun q => { q with client_id := some cid })
                  s.slots a.slot_number,
                clients := insertSorted s.clients cid
                  { Client.new cid u with
                    nickname := some nm.nickname,
                    discriminator := some nm.discriminator,
                    slot_number := some a.slot_number } }, ?_⟩
      simp only [step]
      rw [ha]
      simp [Client.new, hsl]

/-- Witness for C9: a slot assignment pointing at the absent slot 255 makes
the `Player` handler panic while `ClientConnected` succeeds. -/
theorem claim_C9_witness :
    step stateAssign255 0 7 (.Player (some uuidOne) none) = .panicked
      ∧ step stateAssign255 0 7 (.ClientConnected (some uuidOne) 7) ≠ .panicked := by
  obtain ⟨h1, s', h2⟩ :=
    (claim_C9 stateAssign255 0 7 uuidOne none ⟨255, "a"⟩ 7 (by decide)).1 (by decide)
  refine ⟨h1, ?_⟩
  rw [h2]
  simp

/-! ## Claim C10 -/

/-- Claim C10: once the game has started, for a known client whose departure
timestamp is unset, a `ClientDisconnected` event with no player identifier
panics on the `unwrap`, one with a mismatched identifier panics on the
`assert_eq!`, and only a matching identifier yields `ok` with the departure
fields set; neither panic produces a descriptive error result. -/
theorem claim_C10 (s : GameState) (t cid mcid : Int) (r : LeaveReason) (c : Client)
    (hg : s.game_started = true) (hc : lookupA s.clients mcid = some c)
    (hl : c.left_game_time = none) :
    step s t cid (.ClientDisconnected mcid none r) = .panicked
    ∧ (∀ uu, uu ≠ c.uuid → step s t cid (.ClientDisconnected mcid (some uu) r) = .panicked)
    ∧ (∃ s', step s t cid (.ClientDisconnected mcid (some c.uuid) r) = .ok s'
        ∧ lookupA s'.clients mcid
            = some { c with left_game_time := some t, left_game_reason := r }) := by
  refine ⟨?_, ?_, ?_⟩
  · simp only [step]
    rw [if_pos hg, hc]
    simp [hl]
  · intro uu huu
    simp only [step]
    rw [if_pos hg, hc]
    have hne : ¬(c.uuid = uu) := fun h => huu h.symm
    simp [hl, hne]
  · refine ⟨{ s with
              clients := modifyA
                (fun c => { c with left_game_time := some t, left_game_reason := r })
                s.clients mcid }, ?_, ?_⟩
    · simp only [step]
      rw [if_pos hg, hc]
      simp [hl]
    · rw [lookupA_modifyA_self, hc, Option.map_some']

/-- Witness for C10: after `StartGame`, a `ClientDisconnected` for client 7
carrying no player identifier panics. -/
theorem claim_C10_witness :
    step stateStarted 5 0 (.ClientDisconnected 7 none .Disconnect) = .panicked :=
  (claim_C10 stateStarted 5 0 7 .Disconnect
    { Client.new 7 uuidOne with slot_number := some 1 }
    (by decide) (by decide) (by decide)).1

/-! ## Claim C7 -/

/-- Counterexample for C7: on the stream `[5]` the varint length prefix (5)
reads successfully but only 0 payload bytes remain, and `ReplayFile::next`
panics on `read_exact(..).unwrap()`; the outcome is the panic, not an
error value — the iterator's `Option<ReplayChunk>` interface has no error
channel at all, so no explicit error can reach the caller. -/
theorem claim_C7_counterexample :
    replayNext (fun _ => some ()) [5] = ChunkOutcome.panicked := rfl

/-- Amended C7: when the varint length prefix reads successfully but the
payload is shorter than declared or fails to decode, `ReplayFile::next`
panics (the unwrap aborts the iteration), an outcome distinct from clean
end-of-stream and from yielding an item, so the sequence is never silently
truncated — but no error value is returned to the caller. -/
theorem claim_C7_amended {α : Type} (parse : List Nat → Option α) (s : List Nat)
    (len : Nat) (rest : List Nat)
    (hv : readUsizeVarint s = some (len, rest))
    (hfail : rest.length < len ∨ parse (rest.take len) = none) :
    replayNext parse s = .panicked
      ∧ (ChunkOutcome.panicked : ChunkOutcome α) ≠ .eos
      ∧ ∀ c r, (ChunkOutcome.panicked : ChunkOutcome α) ≠ .item c r := by
  refine ⟨?_, by simp, by simp⟩
  rw [replayNext, hv]
  show (if len ≤ rest.length then
      match parse (List.take len rest) with
      | some c => ChunkOutcome.item c (List.drop len rest)
      | none => ChunkOutcome.panicked
    else ChunkOutcome.panicked) = ChunkOutcome.panicked
  rcases hfail with h | h
  · rw [if_neg (by omega)]
  · by_cases hlen : len ≤ rest.length
    · rw [if_pos hlen, h]
    · rw [if_neg hlen]

/-- Witness for the amended C7: a 1-byte payload that fails to parse. -/
theorem claim_C7_amended_witness :
    replayNext (fun _ => (none : Option Unit)) [1, 37] = ChunkOutcome.panicked
      ∧ (ChunkOutcome.panicked : ChunkOutcome Unit) ≠ .eos
      ∧ ∀ c r, (ChunkOutcome.panicked : ChunkOutcome Unit) ≠ .item c r :=
  claim_C7_amended (fun _ => (none : Option Unit)) [1, 37] 1 [37] rfl (Or.inr rfl)

/-! ## Claim C4 -/

theorem first_open_human_slot_spec {l : List (Int × Slot)} (hs : sortedKeys l) :
    (∃ sl, lookupA l (first_open_human_slot l) = some sl
        ∧ sl.slot_type = .Human ∧ sl.client_id = none
        ∧ ∀ m sl', lookupA l m = some sl' → sl'.slot_type = .Human → sl'.client_id = none →
            first_open_human_slot l ≤ m)
    ∨ (first_open_human_slot l = 255
        ∧ ∀ m sl', lookupA l m = some sl' → ¬(sl'.slot_type = .Human ∧ sl'.client_id = none)) := by
  induction l with
  | nil =>
    right
    exact ⟨rfl, by intro m sl' h _; simp [lookupA] at h⟩
  | cons q rest ih =>
    obtain ⟨k1, sl1⟩ := q
    rw [sortedKeys, List.map_cons, List.pairwise_cons] at hs
    by_cases hopen : sl1.client_id = none ∧ sl1.slot_type = SlotType.Human
    · left
      rw [show first_open_human_slot ((k1, sl1) :: rest) = k1 by
        simp [first_open_human_slot, hopen]]
      refine ⟨sl1, by simp [lookupA], hopen.2, hopen.1, ?_⟩
      intro m sl' hm _ _
      by_cases hmk : m = k1
      · omega
      · simp only [lookupA, if_neg hmk] at hm
        have : k1 < m := hs.1 m (List.mem_map.mpr ⟨(m, sl'), lookupA_some_mem hm, rfl⟩)
        omega
    · rw [show first_open_human_slot ((k1, sl1) :: rest) = first_open_human_slot rest by
        simp [first_open_human_slot, hopen]]
      rcases ih hs.2 with ⟨sl, hl, hh, hc, hmin⟩ | ⟨h255, hnone⟩
      · left
        have hkey : k1 < first_open_human_slot rest :=
          hs.1 _ (List.mem_map.mpr ⟨(first_open_human_slot rest, sl), lookupA_some_mem hl, rfl⟩)
        refine ⟨sl, ?_, hh, hc, ?_⟩
        · rw [lookupA, if_neg (by omega)]
          exact hl
        · intro m sl' hm hh' hc'
          by_cases hmk : m = k1
          · subst hmk
            rw [lookupA, if_pos rfl] at hm
            cases hm
            exact absurd ⟨hc', hh'⟩ hopen
          · rw [lookupA, if_neg hmk] at hm
            exact hmin m sl' hm hh' hc'
      · right
        refine ⟨h255, ?_⟩
        intro m sl' hm hcontra
        by_cases hmk : m = k1
        · subst hmk
          rw [lookupA, if_pos rfl] at hm
          cases hm
          exact hopen ⟨hcontra.2, hcontra.1⟩
        · rw [lookupA, if_neg hmk] at hm
          exact hnone m sl' hm hcontra

theorem step_changeSlot_ok_vacate {s : GameState} {t cid : Int} {choice : Option ChoiceType}
    {client : Client} {s' : GameState}
    (hie : s.slots.isEmpty = false)
    (hcl : lookupA s.clients cid = some client)
    (hstep : step s t cid (.ChangeSlot choice) = .ok s') :
    ∃ slots1, vacatePrev s.slots client.slot_number = .ok slots1 := by
  simp only [step, hie, Bool.false_eq_true, if_false] at hstep
  split at hstep
  · simp at hstep
  · rename_i client' hcl'
    rw [hcl] at hcl'
    injection hcl' with h
    subst h
    cases hvp : vacatePrev s.slots client.slot_number with
    | error msg =>
      rw [hvp] at hstep
      simp at hstep
    | ok slots1 => exact ⟨slots1, rfl⟩

theorem step_changeSlot_ok_slot_number {s : GameState} {t cid : Int} {choice : Option ChoiceType}
    {client : Client} {s' : GameState} {slots1 : List (Int × Slot)}
    (hie : s.slots.isEmpty = false)
    (hcl : lookupA s.clients cid = some client)
    (hvp : vacatePrev s.slots client.slot_number = .ok slots1)
    (hstep : step s t cid (.ChangeSlot choice) = .ok s') :
    ∃ c', lookupA s'.clients cid = some c'
      ∧ c'.slot_number = some (chooseSlotNumber choice slots1) := by
  simp only [step, hie, Bool.false_eq_true, if_false] at hstep
  split at hstep
  · simp at hstep
  · rename_i client' hcl'
    rw [hcl] at hcl'
    injection hcl' with h
    subst h
    rw [hvp] at hstep
    split at hstep
    · rename_i msg heq
      cases heq
    · rename_i slots1' heq
      injection heq with h3
      subst h3
      split at hstep
      · split at hstep
        · split at hstep
          · simp at hstep
          · obtain rfl := (SimResult.ok.injEq _ _).mp hstep.symm
            refine ⟨{ client with slot_number := some (chooseSlotNumber choice slots1) },
              ?_, rfl⟩
            show lookupA (modifyA _ s.clients cid) cid = _
            rw [lookupA_modifyA_self, hcl, Option.map_some']
        · simp at hstep
      · obtain rfl := (SimResult.ok.injEq _ _).mp hstep.symm
        refine ⟨{ client with slot_number := some (chooseSlotNumber choice slots1) },
          ?_, rfl⟩
        show lookupA (modifyA _ s.clients cid) cid = _
        rw [lookupA_modifyA_self, hcl, Option.map_some']

/-- Claim C4: for a state with a non-empty slot map and a known acting
client, a `ChangeSlot` event uses the requested slot number when one is
given; otherwise it selects `first_open_human_slot` over the slot map as
it stands after vacating the client's previous slot, and that selection is
the lowest-numbered Human-typed unoccupied slot (255 when none exists).
The `sortedKeys` hypothesis is the `BTreeMap` representation invariant. -/
theorem claim_C4 (s : GameState) (t cid : Int) (choice : Option ChoiceType) (client : Client)
    (hs : sortedKeys s.slots) (hne : s.slots ≠ [])
    (hcl : lookupA s.clients cid = some client) :
    (∀ k s', choice = some (.SpecificSlot k) →
        step s t cid (.ChangeSlot choice) = .ok s' →
        ∃ c', lookupA s'.clients cid = some c' ∧ c'.slot_number = some k)
    ∧ (∀ slots1, (∀ k, choice ≠ some (.SpecificSlot k)) →
        vacatePrev s.slots client.slot_number = .ok slots1 →
        (∀ s', step s t cid (.ChangeSlot choice) = .ok s' →
          ∃ c', lookupA s'.clients cid = some c'
            ∧ c'.slot_number = some (first_open_human_slot slots1))
        ∧ ((∃ sl, lookupA slots1 (first_open_human_slot slots1) = some sl
              ∧ sl.slot_type = .Human ∧ sl.client_id = none
              ∧ ∀ m sl', lookupA slots1 m = some sl' → sl'.slot_type = .Human →
                  sl'.client_id = none → first_open_human_slot slots1 ≤ m)
           ∨ (first_open_human_slot slots1 = 255
              ∧ ∀ m sl', lookupA slots1 m = some sl' →
                  ¬(sl'.slot_type = .Human ∧ sl'.client_id = none)))) := by
  have hie : s.slots.isEmpty = false := isEmpty_false_of_ne_nil hne
  constructor
  · intro k s' hch hstep
    subst hch
    obtain ⟨slots1, hvp⟩ := step_changeSlot_ok_vacate hie hcl hstep
    obtain ⟨c', h1, h2⟩ := step_changeSlot_ok_slot_number hie hcl hvp hstep
    exact ⟨c', h1, h2⟩
  · intro slots1 hch hvp
    have hchoose : chooseSlotNumber choice slots1 = first_open_human_slot slots1 := by
      cases choice with
      | none => rfl
      | some c =>
        cases c with
        | SpecificSlot k => exact absurd rfl (hch k)
        | OtherChoice => rfl
    constructor
    · intro s' hstep
      obtain ⟨c', h1, h2⟩ := step_changeSlot_ok_slot_number hie hcl hvp hstep
      rw [hchoose] at h2
      exact ⟨c', h1, h2⟩
    · exact first_open_human_slot_spec (sortedKeys_vacatePrev hs hvp)

/-- Witness for C4: in the lobby where client 7 sits in slot 1, a
`ChangeSlot` requesting slot 2 records slot 2 on the client. -/
theorem claim_C4_witness :
    (lookupA (okState (step stateLobby 0 7 (.ChangeSlot (some (.SpecificSlot 2))))).clients 7).map
        Client.slot_number = some (some 2) := by
  obtain ⟨c', hlook, hnum⟩ :=
    (claim_C4 stateLobby 0 7 (some (.SpecificSlot 2))
      { Client.new 7 uuidOne with slot_number := some 1 }
      (by decide) (by decide) (by decide)).1 2
      (okState (step stateLobby 0 7 (.ChangeSlot (some (.SpecificSlot 2))))) rfl (by decide)
  rw [hlook, Option.map_some', hnum]

/-! ## Claim C1 -/

theorem step_aiType {s : GameState} {t cid : Int} {ct : CT} {s' : GameState}
    (hI : ∀ p ∈ s.slots, p.2.slot_type = SlotType.Ai → p.2.ai_type.isSome)
    (hstep : step s t cid ct = .ok s') :
    ∀ p ∈ s'.slots, p.2.slot_type = SlotType.Ai → p.2.ai_type.isSome := by
  cases ct with
  | MapDetails mn mt =>
    simp only [step] at hstep
    obtain rfl := (SimResult.ok.injEq _ _).mp hstep.symm
    intro p hp
    rcases mem_insertDefaultSlots hp with hmem | ⟨_, _, hdef⟩
    · exact hI p hmem
    · rw [hdef]
      intro h
      cases h
  | AssignPlayerSlot u slot nick =>
    cases u with
    | none =>
      simp only [step] at hstep
      obtain rfl := (SimResult.ok.injEq _ _).mp hstep.symm
      exact hI
    | some uu =>
      simp only [step] at hstep
      obtain rfl := (SimResult.ok.injEq _ _).mp hstep.symm
      exact hI
  | Player u name =>
    cases u with
    | none =>
      simp only [step] at hstep
      obtain rfl := (SimResult.ok.injEq _ _).mp hstep.symm
      exact hI
    | some uu =>
      simp only [step] at hstep
      split at hstep
      · split at hstep
        · simp at hstep
        · obtain rfl := (SimResult.ok.injEq _ _).mp hstep.symm
          intro p hp
          rcases mem_modifyA hp with hmem | ⟨q, hq, rfl⟩
          · exact hI p hmem
          · exact hI q hq
      · obtain rfl := (SimResult.ok.injEq _ _).mp hstep.symm
        exact hI
  | ClientConnected u mcid =>
    cases u with
    | none =>
      simp only [step] at hstep
      obtain rfl := (SimResult.ok.injEq _ _).mp hstep.symm
      exact hI
    | some uu =>
      simp only [step, Client.new] at hstep
      split at hstep
      · obtain rfl := (SimResult.ok.injEq _ _).mp hstep.symm
        intro p hp
        rcases hsl : lookupA s.slots _ with _ | sl
        · rw [hsl] at hp
          exact hI p hp
        · rw [hsl] at hp
          rcases mem_modifyA hp with hmem | ⟨q, hq, rfl⟩
          · exact hI p hmem
          · exact hI q hq
      · obtain rfl := (SimResult.ok.injEq _ _).mp hstep.symm
        exact hI
  | PlayerLeftGame r =>
    cases hg : s.game_started with
    | true =>
      simp only [step, hg, if_true] at hstep
      obtain rfl := (SimResult.ok.injEq _ _).mp hstep.symm
      exact hI
    | false =>
      simp only [step, hg, Bool.false_eq_true, if_false] at hstep
      obtain rfl := (SimResult.ok.injEq _ _).mp hstep.symm
      intro p hp
      obtain ⟨q, hq, hpq⟩ := mem_clearClientSlots hp
      rcases hpq with h | h
      · rw [h]
        exact hI q hq
      · rw [h]
        exact hI q hq
  | ClientDisconnected mcid pu r =>
    cases hg : s.game_started with
    | false =>
      simp only [step, hg, Bool.false_eq_true, if_false] at hstep
      obtain rfl := (SimResult.ok.injEq _ _).mp hstep.symm
      exact hI
    | true =>
      simp only [step, hg, if_true] at hstep
      split at hstep
      · split at hstep
        · split at hstep
          · simp at hstep
          · split at hstep
            · obtain rfl := (SimResult.ok.injEq _ _).mp hstep.symm
              exact hI
            · simp at hstep
        · obtain rfl := (SimResult.ok.injEq _ _).mp hstep.symm
          exact hI
      · obtain rfl := (SimResult.ok.injEq _ _).mp hstep.symm
        exact hI
  | ChangeSlot choice =>
    simp only [step] at hstep
    split at hstep
    · simp at hstep
    · split at hstep
      · simp at hstep
      · rename_i client hcl'
        split at hstep
        · simp at hstep
        · rename_i slots1 hvp'
          have hs1 : ∀ p ∈ slots1, p.2.slot_type = SlotType.Ai → p.2.ai_type.isSome := by
            rcases vacatePrev_ok hvp' with rfl | ⟨sn, rfl⟩
            · exact hI
            · intro p hp
              rcases mem_modifyA hp with hmem | ⟨q, hq, rfl⟩
              · exact hI p hmem
              · exact hI q hq
          split at hstep
          · split at hstep
            · split at hstep
              · simp at hstep
              · obtain rfl := (SimResult.ok.injEq _ _).mp hstep.symm
                intro p hp
                rcases mem_modifyA hp with hmem | ⟨q, hq, rfl⟩
                · exact hs1 p hmem
                · exact hs1 q hq
            · simp at hstep
          · obtain rfl := (SimResult.ok.injEq _ _).mp hstep.symm
            exact hs1
  | SetVariable mslot vid value =>
    simp only [step] at hstep
    split at hstep
    · simp at hstep
    · split at hstep
      · split at hstep
        · obtain rfl := (SimResult.ok.injEq _ _).mp hstep.symm
          rename_i v hv
          intro p hp
          rcases mem_modifyA hp with hmem | ⟨q, hq, rfl⟩
          · exact hI p hmem
          · cases v <;> simp
        · obtain rfl := (SimResult.ok.injEq _ _).mp hstep.symm
          exact hI
      · split at hstep
        · split at hstep
          · obtain rfl := (SimResult.ok.injEq _ _).mp hstep.symm
            intro p hp
            rcases mem_modifyA hp with hmem | ⟨q, hq, rfl⟩
            · exact hI p hmem
            · exact hI q hq
          · obtain rfl := (SimResult.ok.injEq _ _).mp hstep.symm
            exact hI
        · split at hstep
          · split at hstep
            · obtain rfl := (SimResult.ok.injEq _ _).mp hstep.symm
              intro p hp
              rcases mem_modifyA hp with hmem | ⟨q, hq, rfl⟩
              · exact hI p hmem
              · intro _
                simp
            · obtain rfl := (SimResult.ok.injEq _ _).mp hstep.symm
              exact hI
          · obtain rfl := (SimResult.ok.injEq _ _).mp hstep.symm
            exact hI
  | StartGame =>
    simp only [step] at hstep
    obtain rfl := (SimResult.ok.injEq _ _).mp hstep.symm
    exact hI

theorem applyChunk_aiType {s : GameState} {c : Chunk} {s' : GameState}
    (hI : ∀ p ∈ s.slots, p.2.slot_type = SlotType.Ai → p.2.ai_type.isSome)
    (hstep : applyChunk s c = .ok s') :
    ∀ p ∈ s'.slots, p.2.slot_type = SlotType.Ai → p.2.ai_type.isSome := by
  rw [applyChunk] at hstep
  cases hc : c.content with
  | none =>
    rw [hc] at hstep
    obtain rfl := (SimResult.ok.injEq _ _).mp hstep.symm
    exact hI
  | some ct =>
    rw [hc] at hstep
    exact step_aiType hI hstep

theorem runEvents_aiType : ∀ (chunks : List Chunk) (s s' : GameState),
    (∀ p ∈ s.slots, p.2.slot_type = SlotType.Ai → p.2.ai_type.isSome) →
    runEvents s chunks = .ok s' →
    ∀ p ∈ s'.slots, p.2.slot_type = SlotType.Ai → p.2.ai_type.isSome := by
  intro chunks
  induction chunks with
  | nil =>
    intro s s' hI h
    rw [runEvents] at h
    obtain rfl := (SimResult.ok.injEq _ _).mp h
    exact hI
  | cons c rest ih =>
    intro s s' hI h
    rw [runEvents] at h
    cases hac : applyChunk s c with
    | ok s1 =>
      rw [hac] at h
      exact ih s1 s' (applyChunk_aiType hI hac) h
    | fatal m =>
      rw [hac] at h
      simp at h
    | panicked =>
      rw [hac] at h
      simp at h

/-- Counterexample for C1: the run `exC1` (a 2-slot map, then `SetVariable`
with the AI-subtype id 655515685 and value 0 on slot 1) is accepted, yet it
leaves slot 1 with `ai_type = Some(PeacefulBot)` while `slot_type = Human`:
the 655515685 branch sets `ai_type` without checking the slot's type, so
`ai_type.is_some() == (slot_type == AI)` fails on this reachable state. -/
theorem claim_C1_counterexample :
    simulate exC1 = .ok stateC1
      ∧ lookupA stateC1.slots 1 = some slotC1
      ∧ slotC1.ai_type.isSome = true
      ∧ slotC1.slot_type ≠ SlotType.Ai :=
  ⟨rfl, by decide, by decide, by decide⟩

/-- Amended C1: in every accepted run, every slot whose `slot_type` is AI
has `ai_type` set (`Some`): the forward half of the claimed equivalence is
an invariant (it holds after every accepted prefix, each being itself an
accepted run).  The converse direction fails: a `SetVariable` with the
AI-subtype id sets `ai_type` on a slot of any type (see the
counterexample). -/
theorem claim_C1_amended (chunks : List Chunk) (s' : GameState)
    (h : simulate chunks = .ok s') :
    ∀ p ∈ s'.slots, p.2.slot_type = SlotType.Ai → p.2.ai_type.isSome :=
  runEvents_aiType chunks GameState.initial s' (by simp [GameState.initial]) h

/-- Witness for the amended C1: after setting slot 1 of a fresh lobby to AI
type, that slot's `ai_type` is `Some`. -/
theorem claim_C1_amended_witness :
    (({ slot_type := .Ai, faction := .Vanguard, ai_type := some .PeacefulBot,
        client_id := none } : Slot)).ai_type.isSome :=
  claim_C1_amended exC1w stateC1w rfl
    (1, { slot_type := .Ai, faction := .Vanguard, ai_type := some .PeacefulBot,
          client_id := none })
    (by decide) (by decide)

/-! ## Claim C2 -/

theorem vacatePrev_cases {slots slots1 : List (Int × Slot)} {osn : Option Int}
    (h : vacatePrev slots osn = .ok slots1) :
    (slots1 = slots ∧ (osn = none ∨ osn = some 255))
    ∨ ∃ sn, osn = some sn ∧ sn ≠ (255 : Int)
        ∧ (∃ sl0, lookupA slots sn = some sl0)
        ∧ slots1 = modifyA (fun sl => { sl with client_id := none }) slots sn := by
  match osn with
  | none =>
    simp only [vacatePrev] at h
    injection h with h'
    exact Or.inl ⟨h'.symm, Or.inl rfl⟩
  | some sn =>
    by_cases h255 : sn = (255 : Int)
    · subst h255
      rw [vacatePrev, if_neg (by decide : ¬((255 : Int) ≠ 255))] at h
      injection h with h'
      exact Or.inl ⟨h'.symm, Or.inr rfl⟩
    · rw [vacatePrev, if_pos h255] at h
      cases hl : lookupA slots sn with
      | none =>
        rw [hl] at h
        cases h
      | some sl0 =>
        rw [hl] at h
        injection h with h'
        exact Or.inr ⟨sn, rfl, h255, ⟨sl0, hl⟩, h'.symm⟩

theorem mem_key_modifyA {K V : Type} [DecidableEq K] {p : K × V} {f : V → V}
    {l : List (K × V)} {k : K} (h : p ∈ modifyA f l k) :
    ∃ q, q ∈ l ∧ p.1 = q.1 := by
  rcases mem_modifyA h with hmem | ⟨q, hq, rfl⟩
  · exact ⟨p, hmem, rfl⟩
  · exact ⟨q, hq, rfl⟩

/-- After a successful vacate for the acting client, that client occupies no
slot of the vacated map. -/
theorem vacatePrev_unocc {s : GameState} {cid : Int} {client : Client}
    {slots1 : List (Int × Slot)}
    (hInv : StateInv s)
    (hcl : lookupA s.clients cid = some client)
    (hvp : vacatePrev s.slots client.slot_number = .ok slots1) :
    ∀ n sl, lookupA slots1 n = some sl → sl.client_id ≠ some cid := by
  obtain ⟨hsS, hsC, h255, hOcc⟩ := hInv
  intro n sl hn hocc
  rcases vacatePrev_cases hvp with ⟨rfl, hcase⟩ | ⟨sn, hosn, h255sn, ⟨sl0, hsl0⟩, rfl⟩
  · obtain ⟨c, hc, hnum⟩ := hOcc n sl hn cid hocc
    rw [hcl] at hc
    injection hc with he
    subst he
    rcases hcase with hnone | h255n
    · rw [hnone] at hnum
      cases hnum
    · rw [h255n] at hnum
      injection hnum with he2
      exact h255 (n, sl) (lookupA_some_mem hn) he2.symm
  · by_cases hns : n = sn
    · subst hns
      rw [lookupA_modifyA_self, hsl0] at hn
      injection hn with he
      rw [← he] at hocc
      simp at hocc
    · rw [lookupA_modifyA_ne _ _ _ _ hns] at hn
      obtain ⟨c, hc, hnum⟩ := hOcc n sl hn cid hocc
      rw [hcl] at hc
      injection hc with he
      subst he
      rw [hosn] at hnum
      injection hnum with he2
      exact hns he2.symm

/-- Vacating preserves the back-link property of occupied slots, read
against the original client map. -/
theorem vacatePrev_occ {s : GameState} {osn : Option Int} {slots1 : List (Int × Slot)}
    (hOcc : SlotsOcc s) (hvp : vacatePrev s.slots osn = .ok slots1) :
    ∀ n sl, lookupA slots1 n = some sl → ∀ x, sl.client_id = some x →
      ∃ c, lookupA s.clients x = some c ∧ c.slot_number = some n := by
  intro n sl hn x hx
  rcases vacatePrev_cases hvp with ⟨rfl, _⟩ | ⟨sn, hosn, h255sn, ⟨sl0, hsl0⟩, rfl⟩
  · exact hOcc n sl hn x hx
  · by_cases hns : n = sn
    · subst hns
      rw [lookupA_modifyA_self, hsl0] at hn
      injection hn with he
      rw [← he] at hx
      simp at hx
    · rw [lookupA_modifyA_ne _ _ _ _ hns] at hn
      exact hOcc n sl hn x hx

/-- Vacating never seats a client: unoccupancy is preserved. -/
theorem vacatePrev_unocc_pres {s : GameState} {osn : Option Int}
    {slots1 : List (Int × Slot)} {x : Int}
    (hun : Unocc s x) (hvp : vacatePrev s.slots osn = .ok slots1) :
    ∀ n sl, lookupA slots1 n = some sl → sl.client_id ≠ some x := by
  intro n sl hn
  rcases vacatePrev_cases hvp with ⟨rfl, _⟩ | ⟨sn, hosn, h255sn, ⟨sl0, hsl0⟩, rfl⟩
  · exact hun n sl hn
  · by_cases hns : n = sn
    · subst hns
      rw [lookupA_modifyA_self, hsl0] at hn
      injection hn with he
      rw [← he]
      simp
    · rw [lookupA_modifyA_ne _ _ _ _ hns] at hn
      exact hun n sl hn

/-- Vacating does not add slot keys. -/
theorem vacatePrev_keys {s : GameState} {osn : Option Int} {slots1 : List (Int × Slot)}
    (h255 : ∀ p ∈ s.slots, p.1 ≠ (255 : Int))
    (hvp : vacatePrev s.slots osn = .ok slots1) :
    ∀ p ∈ slots1, p.1 ≠ (255 : Int) := by
  intro p hp
  rcases vacatePrev_cases hvp with ⟨rfl, _⟩ | ⟨sn, hosn, h255sn, ⟨sl0, hsl0⟩, rfl⟩
  · exact h255 p hp
  · obtain ⟨q, hq, hk⟩ := mem_key_modifyA hp
    rw [hk]
    exact h255 q hq

theorem step_occ {s : GameState} {t cid : Int} {ct : CT} {s' : GameState}
    (hInv : StateInv s)
    (hA : ∀ a, annId cid ct = some a → lookupA s.clients a = none ∧ Unocc s a)
    (hstep : step s t cid ct = .ok s') :
    StateInv s'
    ∧ (∀ x, annId cid ct ≠ some x → lookupA s.clients x = none → Unocc s x →
        lookupA s'.clients x = none ∧ Unocc s' x) := by
  obtain ⟨hsS, hsC, h255, hOcc⟩ := hInv
  cases ct with
  | MapDetails mn mt =>
    have key : ∀ (n : Nat), (n : Int) ≤ 3 →
        ∀ s'', SimResult.ok { s with
            map_name := some mn,
            slots := insertDefaultSlots s.slots n } = .ok s'' →
        StateInv s''
        ∧ (∀ x, annId cid (.MapDetails mn mt) ≠ some x →
            lookupA s.clients x = none → Unocc s x →
            lookupA s''.clients x = none ∧ Unocc s'' x) := by
      intro n hn3 s'' hstep'
      obtain rfl := (SimResult.ok.injEq _ _).mp hstep'.symm
      constructor
      · refine ⟨sortedKeys_insertDefaultSlots hsS _, hsC, ?_, ?_⟩
        · intro p hp
          rcases mem_insertDefaultSlots hp with hmem | ⟨h1, h2, _⟩
          · exact h255 p hmem
          · omega
        · intro m sl hm x hx
          rw [lookupA_insertDefaultSlots] at hm
          split at hm
          · injection hm with he
            rw [← he] at hx
            simp [Slot.defaultSlot] at hx
          · exact hOcc m sl hm x hx
      · intro x _ hxnone hxun
        refine ⟨hxnone, ?_⟩
        intro m sl hm
        rw [lookupA_insertDefaultSlots] at hm
        split at hm
        · injection hm with he
          rw [← he]
          simp [Slot.defaultSlot]
        · exact hxun m sl hm
    cases mt with
    | Coop3vE => exact key 3 (by norm_num) s' (by simpa only [step] using hstep)
    | Ranked1v1 => exact key 2 (by norm_num) s' (by simpa only [step] using hstep)
    | OtherMatchType => exact key 2 (by norm_num) s' (by simpa only [step] using hstep)
  | AssignPlayerSlot u slot nick =>
    cases u with
    | none =>
      simp only [step] at hstep
      obtain rfl := (SimResult.ok.injEq _ _).mp hstep.symm
      exact ⟨⟨hsS, hsC, h255, hOcc⟩, fun x _ hxn hxu => ⟨hxn, hxu⟩⟩
    | some uu =>
      simp only [step] at hstep
      obtain rfl := (SimResult.ok.injEq _ _).mp hstep.symm
      exact ⟨⟨hsS, hsC, h255, hOcc⟩, fun x _ hxn hxu => ⟨hxn, hxu⟩⟩
  | Player u name =>
    cases u with
    | none =>
      simp only [step] at hstep
      obtain rfl := (SimResult.ok.injEq _ _).mp hstep.symm
      exact ⟨⟨hsS, hsC, h255, hOcc⟩, fun x _ hxn hxu => ⟨hxn, hxu⟩⟩
    | some uu =>
      obtain ⟨hcidnone, hcidun⟩ := hA cid rfl
      simp only [step] at hstep
      split at hstep
      · rename_i a ha
        split at hstep
        · simp at hstep
        · rename_i sl0 hsl0
          obtain rfl := (SimResult.ok.injEq _ _).mp hstep.symm
          constructor
          · refine ⟨sortedKeys_modifyA hsS _ _, sortedKeys_insertSorted hsC _ _, ?_, ?_⟩
            · intro p hp
              obtain ⟨q, hq, hk⟩ := mem_key_modifyA hp
              rw [hk]
              exact h255 q hq
            · intro n sl hn x hx
              by_cases hna : n = a.slot_number
              · subst hna
                rw [lookupA_modifyA_self, hsl0] at hn
                injection hn with he
                rw [← he] at hx
                injection hx with hxe
                subst hxe
                refine ⟨_, lookupA_insertSorted_self _ _ _, rfl⟩
              · rw [lookupA_modifyA_ne _ _ _ _ hna] at hn
                have hxcid : x ≠ cid := by
                  intro he
                  subst he
                  exact hcidun n sl hn hx
                obtain ⟨c, hc, hnum⟩ := hOcc n sl hn x hx
                rw [lookupA_insertSorted_ne _ _ _ _ hxcid]
                exact ⟨c, hc, hnum⟩
          · intro x hxann hxnone hxun
            have hxcid : x ≠ cid := fun he => hxann (by rw [he]; exact rfl)
            constructor
            · rw [lookupA_insertSorted_ne _ _ _ _ hxcid]
              exact hxnone
            · intro n sl hn
              by_cases hna : n = a.slot_number
              · subst hna
                rw [lookupA_modifyA_self, hsl0] at hn
                injection hn with he
                rw [← he]
                intro hE
                injection hE with hE2
                exact hxcid hE2.symm
              · rw [lookupA_modifyA_ne _ _ _ _ hna] at hn
                exact hxun n sl hn
      · rename_i ha
        obtain rfl := (SimResult.ok.injEq _ _).mp hstep.symm
        constructor
        · refine ⟨hsS, sortedKeys_insertSorted hsC _ _, h255, ?_⟩
          intro n sl hn x hx
          have hxcid : x ≠ cid := by
            intro he
            subst he
            exact hcidun n sl hn hx
          obtain ⟨c, hc, hnum⟩ := hOcc n sl hn x hx
          rw [lookupA_insertSorted_ne _ _ _ _ hxcid]
          exact ⟨c, hc, hnum⟩
        · intro x hxann hxnone hxun
          have hxcid : x ≠ cid := fun he => hxann (by rw [he]; exact rfl)
          refine ⟨?_, hxun⟩
          rw [lookupA_insertSorted_ne _ _ _ _ hxcid]
          exact hxnone
  | ClientConnected u mcid =>
    cases u with
    | none =>
      simp only [step] at hstep
      obtain rfl := (SimResult.ok.injEq _ _).mp hstep.symm
      exact ⟨⟨hsS, hsC, h255, hOcc⟩, fun x _ hxn hxu => ⟨hxn, hxu⟩⟩
    | some uu =>
      obtain ⟨hmcidnone, hmcidun⟩ := hA mcid rfl
      simp only [step, Client.new] at hstep
      split at hstep
      · rename_i a ha
        cases hsl : lookupA s.slots a.slot_number with
        | none =>
          rw [hsl] at hstep
          have hstep2 : SimResult.ok { s with
              clients := insertSorted s.clients mcid
                { Client.new mcid uu with
                  slot_number := some a.slot_number,
                  nickname := some a.nickname } } = SimResult.ok s' := hstep
          obtain rfl := (SimResult.ok.injEq _ _).mp hstep2.symm
          constructor
          · refine ⟨hsS, sortedKeys_insertSorted hsC _ _, h255, ?_⟩
            intro n sl hn x hx
            have hxcid : x ≠ mcid := by
              intro he
              subst he
              exact hmcidun n sl hn hx
            obtain ⟨c, hc, hnum⟩ := hOcc n sl hn x hx
            rw [lookupA_insertSorted_ne _ _ _ _ hxcid]
            exact ⟨c, hc, hnum⟩
          · intro x hxann hxnone hxun
            have hxcid : x ≠ mcid := fun he => hxann (by rw [he]; exact rfl)
            refine ⟨?_, hxun⟩
            rw [lookupA_insertSorted_ne _ _ _ _ hxcid]
            exact hxnone
        | some sl0 =>
          rw [hsl] at hstep
          have hstep2 : SimResult.ok { s with
              slots := modifyA (fun q => { q with client_id := some mcid })
                s.slots a.slot_number,
              clients := insertSorted s.clients mcid
                { Client.new mcid uu with
                  slot_number := some a.slot_number,
                  nickname := some a.nickname } } = SimResult.ok s' := hstep
          obtain rfl := (SimResult.ok.injEq _ _).mp hstep2.symm
          constructor
          · refine ⟨sortedKeys_modifyA hsS _ _, sortedKeys_insertSorted hsC _ _, ?_, ?_⟩
            · intro p hp
              obtain ⟨q, hq, hk⟩ := mem_key_modifyA hp
              rw [hk]
              exact h255 q hq
            · intro n sl hn x hx
              by_cases hna : n = a.slot_number
              · subst hna
                rw [lookupA_modifyA_self, hsl] at hn
                injection hn with he
                rw [← he] at hx
                injection hx with hxe
                subst hxe
                refine ⟨_, lookupA_insertSorted_self _ _ _, rfl⟩
              · rw [lookupA_modifyA_ne _ _ _ _ hna] at hn
                have hxcid : x ≠ mcid := by
                  intro he
                  subst he
                  exact hmcidun n sl hn hx
                obtain ⟨c, hc, hnum⟩ := hOcc n sl hn x hx
                rw [lookupA_insertSorted_ne _ _ _ _ hxcid]
                exact ⟨c, hc, hnum⟩
          · intro x hxann hxnone hxun
            have hxcid : x ≠ mcid := fun he => hxann (by rw [he]; exact rfl)
            constructor
            · rw [lookupA_insertSorted_ne _ _ _ _ hxcid]
              exact hxnone
            · intro n sl hn
              by_cases hna : n = a.slot_number
              · subst hna
                rw [lookupA_modifyA_self, hsl] at hn
                injection hn with he
                rw [← he]
                intro hE
                injection hE with hE2
                exact hxcid hE2.symm
              · rw [lookupA_modifyA_ne _ _ _ _ hna] at hn
                exact hxun n sl hn
      · rename_i ha
        obtain rfl := (SimResult.ok.injEq _ _).mp hstep.symm
        constructor
        · refine ⟨hsS, sortedKeys_insertSorted hsC _ _, h255, ?_⟩
          intro n sl hn x hx
          have hxcid : x ≠ mcid := by
            intro he
            subst he
            exact hmcidun n sl hn hx
          obtain ⟨c, hc, hnum⟩ := hOcc n sl hn x hx
          rw [lookupA_insertSorted_ne _ _ _ _ hxcid]
          exact ⟨c, hc, hnum⟩
        · intro x hxann hxnone hxun
          have hxcid : x ≠ mcid := fun he => hxann (by rw [he]; exact rfl)
          refine ⟨?_, hxun⟩
          rw [lookupA_insertSorted_ne _ _ _ _ hxcid]
          exact hxnone
  | PlayerLeftGame r =>
    cases hg : s.game_started with
    | true =>
      simp only [step, hg, if_true] at hstep
      obtain rfl := (SimResult.ok.injEq _ _).mp hstep.symm
      constructor
      · refine ⟨hsS, sortedKeys_modifyA hsC _ _, h255, ?_⟩
        intro n sl hn x hx
        obtain ⟨c, hc, hnum⟩ := hOcc n sl hn x hx
        by_cases hxc : x = cid
        · subst hxc
          refine ⟨{ c with left_game_time := some t, left_game_reason := r }, ?_, hnum⟩
          rw [lookupA_modifyA_self, hc, Option.map_some']
        · rw [lookupA_modifyA_ne _ _ _ _ hxc]
          exact ⟨c, hc, hnum⟩
      · intro x _ hxnone hxun
        refine ⟨?_, hxun⟩
        by_cases hxc : x = cid
        · subst hxc
          rw [lookupA_modifyA_self, hxnone]
          rfl
        · rw [lookupA_modifyA_ne _ _ _ _ hxc]
          exact hxnone
    | false =>
      simp only [step, hg, Bool.false_eq_true, if_false] at hstep
      obtain rfl := (SimResult.ok.injEq _ _).mp hstep.symm
      constructor
      · refine ⟨sortedKeys_clearClientSlots hsS _, sortedKeys_eraseA hsC _, ?_, ?_⟩
        · intro p hp
          obtain ⟨q, hq, hpq⟩ := mem_clearClientSlots hp
          rcases hpq with h | h
          · rw [h]
            exact h255 q hq
          · rw [h]
            exact h255 q hq
        · intro n sl hn x hx
          rw [lookupA_clearClientSlots] at hn
          cases hsn : lookupA s.slots n with
          | none =>
            rw [hsn] at hn
            cases hn
          | some sl0 =>
            rw [hsn, Option.map_some'] at hn
            injection hn with he
            by_cases hocc0 : sl0.client_id = some cid
            · rw [← he, if_pos hocc0] at hx
              simp at hx
            · rw [← he, if_neg hocc0] at hx
              have hxcid : x ≠ cid := by
                intro hE
                subst hE
                exact hocc0 hx
              obtain ⟨c, hc, hnum⟩ := hOcc n sl0 hsn x hx
              rw [lookupA_eraseA_ne _ _ _ hxcid]
              exact ⟨c, hc, hnum⟩
      · intro x _ hxnone hxun
        constructor
        · by_cases hxc : x = cid
          · subst hxc
            exact lookupA_eraseA_self hsC _
          · rw [lookupA_eraseA_ne _ _ _ hxc]
            exact hxnone
        · intro n sl hn
          rw [lookupA_clearClientSlots] at hn
          cases hsn : lookupA s.slots n with
          | none =>
            rw [hsn] at hn
            cases hn
          | some sl0 =>
            rw [hsn, Option.map_some'] at hn
            injection hn with he
            rw [← he]
            by_cases hocc0 : sl0.client_id = some cid
            · rw [if_pos hocc0]
              simp
            · rw [if_neg hocc0]
              exact hxun n sl0 hsn
  | ClientDisconnected mcid pu r =>
    cases hg : s.game_started with
    | false =>
      simp only [step, hg, Bool.false_eq_true, if_false] at hstep
      obtain rfl := (SimResult.ok.injEq _ _).mp hstep.symm
      exact ⟨⟨hsS, hsC, h255, hOcc⟩, fun x _ hxn hxu => ⟨hxn, hxu⟩⟩
    | true =>
      simp only [step, hg, if_true] at hstep
      split at hstep
      · rename_i c0 hc0
        split at hstep
        · split at hstep
          · simp at hstep
          · split at hstep
            · obtain rfl := (SimResult.ok.injEq _ _).mp hstep.symm
              constructor
              · refine ⟨hsS, sortedKeys_modifyA hsC _ _, h255, ?_⟩
                intro n sl hn x hx
                obtain ⟨c, hc, hnum⟩ := hOcc n sl hn x hx
                by_cases hxc : x = mcid
                · subst hxc
                  refine ⟨{ c with left_game_time := some t, left_game_reason := r },
                    ?_, hnum⟩
                  rw [lookupA_modifyA_self, hc, Option.map_some']
                · rw [lookupA_modifyA_ne _ _ _ _ hxc]
                  exact ⟨c, hc, hnum⟩
              · intro x _ hxnone hxun
                refine ⟨?_, hxun⟩
                by_cases hxc : x = mcid
                · subst hxc
                  rw [lookupA_modifyA_self, hxnone]
                  rfl
                · rw [lookupA_modifyA_ne _ _ _ _ hxc]
                  exact hxnone
            · simp at hstep
        · obtain rfl := (SimResult.ok.injEq _ _).mp hstep.symm
          exact ⟨⟨hsS, hsC, h255, hOcc⟩, fun x _ hxn hxu => ⟨hxn, hxu⟩⟩
      · obtain rfl := (SimResult.ok.injEq _ _).mp hstep.symm
        exact ⟨⟨hsS, hsC, h255, hOcc⟩, fun x _ hxn hxu => ⟨hxn, hxu⟩⟩
  | ChangeSlot choice =>
    simp only [step] at hstep
    split at hstep
    · simp at hstep
    · split at hstep
      · simp at hstep
      · rename_i client hcl'
        split at hstep
        · simp at hstep
        · rename_i slots1 hvp'
          have hsS1 : sortedKeys slots1 := sortedKeys_vacatePrev hsS hvp'
          have h2551 : ∀ p ∈ slots1, p.1 ≠ (255 : Int) := vacatePrev_keys h255 hvp'
          have hOcc1 := vacatePrev_occ hOcc hvp'
          have hUn1 := vacatePrev_unocc ⟨hsS, hsC, h255, hOcc⟩ hcl' hvp'
          split at hstep
          · split at hstep
            · rename_i slot hslot
              split at hstep
              · simp at hstep
              · obtain rfl := (SimResult.ok.injEq _ _).mp hstep.symm
                constructor
                · refine ⟨sortedKeys_modifyA hsS1 _ _, sortedKeys_modifyA hsC _ _, ?_, ?_⟩
                  · intro p hp
                    obtain ⟨q, hq, hk⟩ := mem_key_modifyA hp
                    rw [hk]
                    exact h2551 q hq
                  · intro n sl hn x hx
                    by_cases hnn : n = chooseSlotNumber choice slots1
                    · subst hnn
                      rw [lookupA_modifyA_self, hslot] at hn
                      injection hn with he
                      rw [← he] at hx
                      injection hx with hxe
                      subst hxe
                      refine ⟨{ client with
                        slot_number := some (chooseSlotNumber choice slots1) }, ?_, rfl⟩
                      rw [lookupA_modifyA_self, hcl', Option.map_some']
                    · rw [lookupA_modifyA_ne _ _ _ _ hnn] at hn
                      have hxcid : x ≠ cid := by
                        intro he
                        subst he
                        exact hUn1 n sl hn hx
                      obtain ⟨c, hc, hnum⟩ := hOcc1 n sl hn x hx
                      rw [lookupA_modifyA_ne _ _ _ _ hxcid]
                      exact ⟨c, hc, hnum⟩
                · intro x _ hxnone hxun
                  have hxcid : x ≠ cid := by
                    intro he
                    subst he
                    rw [hxnone] at hcl'
                    cases hcl'
                  constructor
                  · rw [lookupA_modifyA_ne _ _ _ _ hxcid]
                    exact hxnone
                  · intro n sl hn
                    by_cases hnn : n = chooseSlotNumber choice slots1
                    · subst hnn
                      rw [lookupA_modifyA_self, hslot] at hn
                      injection hn with he
                      rw [← he]
                      intro hE
                      injection hE with hE2
                      exact hxcid hE2.symm
                    · rw [lookupA_modifyA_ne _ _ _ _ hnn] at hn
                      exact vacatePrev_unocc_pres hxun hvp' n sl hn
            · simp at hstep
          · obtain rfl := (SimResult.ok.injEq _ _).mp hstep.symm
            constructor
            · refine ⟨hsS1, sortedKeys_modifyA hsC _ _, h2551, ?_⟩
              intro n sl hn x hx
              have hxcid : x ≠ cid := by
                intro he
                subst he
                exact hUn1 n sl hn hx
              obtain ⟨c, hc, hnum⟩ := hOcc1 n sl hn x hx
              rw [lookupA_modifyA_ne _ _ _ _ hxcid]
              exact ⟨c, hc, hnum⟩
            · intro x _ hxnone hxun
              have hxcid : x ≠ cid := by
                intro he
                subst he
                rw [hxnone] at hcl'
                cases hcl'
              constructor
              · rw [lookupA_modifyA_ne _ _ _ _ hxcid]
                exact hxnone
              · intro n sl hn
                exact vacatePrev_unocc_pres hxun hvp' n sl hn
  | SetVariable mslot vid value =>
    simp only [step] at hstep
    split at hstep
    · simp at hstep
    · rename_i sl0 hsl0
      have modCase : ∀ (f : Slot → Slot) (s'' : GameState),
          SimResult.ok { s with slots := modifyA f s.slots mslot } = .ok s'' →
          (∀ sl, (f sl).client_id = sl.client_id) →
          StateInv s''
          ∧ (∀ x, annId cid (.SetVariable mslot vid value) ≠ some x →
              lookupA s.clients x = none → Unocc s x →
              lookupA s''.clients x = none ∧ Unocc s'' x) := by
        intro f s'' hstep' hf
        obtain rfl := (SimResult.ok.injEq _ _).mp hstep'.symm
        constructor
        · refine ⟨sortedKeys_modifyA hsS _ _, hsC, ?_, ?_⟩
          · intro p hp
            obtain ⟨q, hq, hk⟩ := mem_key_modifyA hp
            rw [hk]
            exact h255 q hq
          · intro n sl hn x hx
            by_cases hnm : n = mslot
            · subst hnm
              rw [lookupA_modifyA_self, hsl0] at hn
              injection hn with he
              rw [← he, hf] at hx
              exact hOcc _ sl0 hsl0 x hx
            · rw [lookupA_modifyA_ne _ _ _ _ hnm] at hn
              exact hOcc n sl hn x hx
        · intro x _ hxnone hxun
          refine ⟨hxnone, ?_⟩
          intro n sl hn
          by_cases hnm : n = mslot
          · subst hnm
            rw [lookupA_modifyA_self, hsl0] at hn
            injection hn with he
            rw [← he]
            intro hE
            rw [hf] at hE
            exact hxun _ sl0 hsl0 hE
          · rw [lookupA_modifyA_ne _ _ _ _ hnm] at hn
            exact hxun n sl hn
      split at hstep
      · split at hstep
        · exact modCase _ s' hstep (fun sl => rfl)
        · obtain rfl := (SimResult.ok.injEq _ _).mp hstep.symm
          exact ⟨⟨hsS, hsC, h255, hOcc⟩, fun x _ hxn hxu => ⟨hxn, hxu⟩⟩
      · split at hstep
        · split at hstep
          · exact modCase _ s' hstep (fun sl => rfl)
          · obtain rfl := (SimResult.ok.injEq _ _).mp hstep.symm
            exact ⟨⟨hsS, hsC, h255, hOcc⟩, fun x _ hxn hxu => ⟨hxn, hxu⟩⟩
        · split at hstep
          · split at hstep
            · exact modCase _ s' hstep (fun sl => rfl)
            · obtain rfl := (SimResult.ok.injEq _ _).mp hstep.symm
              exact ⟨⟨hsS, hsC, h255, hOcc⟩, fun x _ hxn hxu => ⟨hxn, hxu⟩⟩
          · obtain rfl := (SimResult.ok.injEq _ _).mp hstep.symm
            exact ⟨⟨hsS, hsC, h255, hOcc⟩, fun x _ hxn hxu => ⟨hxn, hxu⟩⟩
  | StartGame =>
    simp only [step] at hstep
    obtain rfl := (SimResult.ok.injEq _ _).mp hstep.symm
    exact ⟨⟨hsS, hsC, h255, hOcc⟩, fun x _ hxn hxu => ⟨hxn, hxu⟩⟩

theorem runEvents_occ : ∀ (chunks : List Chunk) (s s' : GameState),
    StateInv s →
    (announcedIds chunks).Nodup →
    (∀ x ∈ announcedIds chunks, lookupA s.clients x = none ∧ Unocc s x) →
    runEvents s chunks = .ok s' →
    StateInv s' := by
  intro chunks
  induction chunks with
  | nil =>
    intro s s' hInv _ _ h
    rw [runEvents] at h
    obtain rfl := (SimResult.ok.injEq _ _).mp h
    exact hInv
  | cons c rest ih =>
    intro s s' hInv hnodup hD h
    rw [runEvents] at h
    cases hac : applyChunk s c with
    | fatal m =>
      rw [hac] at h
      simp at h
    | panicked =>
      rw [hac] at h
      simp at h
    | ok s1 =>
      rw [hac] at h
      rw [applyChunk] at hac
      cases hc : c.content with
      | none =>
        rw [hc] at hac
        injection hac with he
        subst he
        have hrest : announcedIds (c :: rest) = announcedIds rest := by
          simp [announcedIds, hc]
        rw [hrest] at hnodup hD
        exact ih _ s' hInv hnodup hD h
      | some ct =>
        rw [hc] at hac
        have hrest : announcedIds (c :: rest)
            = (annId c.client_id ct).toList ++ announcedIds rest := by
          simp [announcedIds, hc]
        rw [hrest] at hnodup hD
        rw [List.nodup_append] at hnodup
        have hA : ∀ a, annId c.client_id ct = some a →
            lookupA s.clients a = none ∧ Unocc s a := by
          intro a ha
          exact hD a (by simp [ha])
        obtain ⟨hInv1, htrans⟩ := step_occ hInv hA hac
        refine ih s1 s' hInv1 hnodup.2.1 ?_ h
        intro x hx
        have hxfull := hD x (List.mem_append_right _ hx)
        have hxann : annId c.client_id ct ≠ some x := by
          intro hEq
          exact hnodup.2.2 (by simp [hEq]) hx
        exact htrans x hxann hxfull.1 hxfull.2

/-- Counterexample for C2: the run `exC2` is accepted (two slot assignments
for distinct player identifiers, then two `Player` events both announcing
client id 7), and it leaves slots 1 and 2 — two distinct slots — both with
`occupant_client_id = Some 7`: the `Player` handler marks the assignment's
slot occupied without vacating the client's previous slot. -/
theorem claim_C2_counterexample :
    simulate exC2 = .ok stateC2
      ∧ lookupA stateC2.slots 1 = some { Slot.defaultSlot with client_id := some 7 }
      ∧ lookupA stateC2.slots 2 = some { Slot.defaultSlot with client_id := some 7 }
      ∧ (1 : Int) ≠ 2 :=
  ⟨rfl, by decide, by decide, by decide⟩

/-- Amended C2: in every accepted run in which each client id is announced
by at most one `Player`/`ClientConnected` event (the announced-id list has
no duplicates), no two distinct slots simultaneously report the same
non-null `occupant_client_id`; this holds at any point, every accepted
prefix being itself an accepted run.  Without that restriction, a second
announcement for an already-seated client id can occupy a second slot (see
the counterexample). -/
theorem claim_C2_amended (chunks : List Chunk) (s' : GameState)
    (hnodup : (announcedIds chunks).Nodup)
    (h : simulate chunks = .ok s') :
    ∀ p ∈ s'.slots, ∀ q ∈ s'.slots, ∀ x : Int,
      p.2.client_id = some x → q.2.client_id = some x → p.1 = q.1 := by
  have hInv : StateInv s' := by
    refine runEvents_occ chunks GameState.initial s' ?_ hnodup ?_ h
    · refine ⟨?_, ?_, ?_, ?_⟩
      · simp [sortedKeys, GameState.initial]
      · simp [sortedKeys, GameState.initial]
      · intro p hp
        simp [GameState.initial] at hp
      · intro n sl hn
        simp [GameState.initial, lookupA] at hn
    · intro x _
      refine ⟨rfl, ?_⟩
      intro n sl hn
      simp [GameState.initial, lookupA] at hn
  obtain ⟨hsS, hsC, h255, hOcc⟩ := hInv
  intro p hp q hq x hpx hqx
  obtain ⟨pk, psl⟩ := p
  obtain ⟨qk, qsl⟩ := q
  obtain ⟨c1, hc1, hn1⟩ := hOcc pk psl (mem_lookupA hsS hp) x hpx
  obtain ⟨c2, hc2, hn2⟩ := hOcc qk qsl (mem_lookupA hsS hq) x hqx
  rw [hc1] at hc2
  injection hc2 with he
  rw [he] at hn1
  rw [hn1] at hn2
  exact Option.some.inj hn2

/-- Witness for the amended C2: a run with each client id announced once
seats client 7 in slot 1 only; instantiating the theorem at that slot
(taken twice) discharges all hypotheses. -/
theorem claim_C2_amended_witness : (1 : Int) = 1 :=
  claim_C2_amended exC2w stateC2w (by decide) rfl
    (1, { Slot.defaultSlot with client_id := some 7 }) (by decide)
    (1, { Slot.defaultSlot with client_id := some 7 }) (by decide)
    7 (by decide) (by decide)
